import Mathlib

/-!
# Verification of the Space-Dog price-catalog sync core

Shallow embedding of `src/magiccollection-desktop/src-tauri/src/lib.rs`:
the versioned snapshot/patch state machine (`apply_catalog_snapshot`,
`apply_catalog_patch`), the compact price-row merge engine
(`upsert_compact_price_row`), the state hasher
(`compute_catalog_state_hash`), the trend derivation
(`build_price_trend_by_column`) and the multi-source sync orchestrator
(`sync_all_sources_now`).

Modelling conventions:
* SQLite tables become lists of row structures; the unique index /
  primary key of each table becomes a key predicate, and
  `INSERT ... ON CONFLICT ... DO UPDATE` becomes "update the first
  matching row, else append".
* `f64` values are modelled by `F64` (a rational plus a finiteness flag);
  the code only ever guards floats with `is_finite` and compares them
  against constants, so this captures every use.  `i64` is modelled by
  `Int` (no overflow occurs in the modelled paths).
* The clock (`now_iso()`) is passed explicitly as a `now : String`
  parameter; one command invocation uses one clock value.
* Storage (rusqlite) errors are outside the model: state operations are
  total, and `Except String` appears exactly where the source can fail
  for non-storage reasons (validation, consistency checks, feed fetches).
* A transactional command is a function to `Except String (DbState × result)`;
  its persisted semantics (`...Run`) keeps the original state when the
  command throws, which is exactly SQLite transaction rollback.
-/

namespace SpaceDog

/-- Shallow model of a Rust `f64`: a rational value plus a finiteness
flag.  Non-finite inputs (`NaN`, `±∞`) all have `isFinite = false` and a
meaningless `val`; the source only consumes floats through
`is_finite`-guarded comparisons, storage, subtraction and threshold
comparison, which this model covers. -/
structure F64 where
  isFinite : Bool
  val : ℚ
deriving DecidableEq, Repr

/-- A finite `f64` literal. -/
def fin64 (q : ℚ) : F64 := ⟨true, q⟩

end SpaceDog

/-! ## Kernel-computable models of Rust standard string/number functions

The Rust `str` methods used by the source (`trim`, `to_lowercase`,
`to_uppercase`, `replace`, `parse`, `starts_with`, byte-wise ordering)
are standard-library code, not repository code; they are modelled here
on the character list of the string so that every definition in this
file evaluates inside the kernel (`Lean`'s own `String.trim` and friends
are position-based and do not reduce definitionally). -/

/-- Rust `str::trim`: drop whitespace from both ends. -/
def String.mTrim (s : String) : String :=
  ⟨((s.data.dropWhile Char.isWhitespace).reverse.dropWhile Char.isWhitespace).reverse⟩

/-- Rust `str::to_lowercase` (per-character). -/
def String.mToLower (s : String) : String := ⟨s.data.map Char.toLower⟩

/-- Rust `str::to_uppercase` (per-character). -/
def String.mToUpper (s : String) : String := ⟨s.data.map Char.toUpper⟩

/-- Rust `str::replace(c, "")`: remove every occurrence of one character. -/
def String.mRemove (s : String) (c : Char) : String :=
  ⟨s.data.filter (fun x => x ≠ c)⟩

/-- A non-empty all-digit character list read as a natural number. -/
def charsDigitsToNat? (cs : List Char) : Option Nat :=
  if cs ≠ [] ∧ cs.all Char.isDigit then
    some (cs.foldl (fun a c => a * 10 + (c.toNat - 48)) 0)
  else none

/-- Rust `str::parse::<u64>`-style digit parsing. -/
def String.mToNat? (s : String) : Option Nat := charsDigitsToNat? s.data

/-- Rust `str::parse::<i64>`: optional sign followed by digits. -/
def String.mToInt? (s : String) : Option Int :=
  match s.data with
  | '-' :: rest => (charsDigitsToNat? rest).map (fun n => -(n : Int))
  | '+' :: rest => (charsDigitsToNat? rest).map (fun n => (n : Int))
  | _ => (charsDigitsToNat? s.data).map (fun n => (n : Int))

/-- `chars().all(is_ascii_digit)`. -/
def String.mAllDigits (s : String) : Bool := s.data.all Char.isDigit

/-- Character-list prefix test (empty pattern always matches). -/
def charsStarts : List Char → List Char → Bool
  | _, [] => true
  | [], _ :: _ => false
  | a :: as, b :: bs => a == b && charsStarts as bs

/-- Rust `str::starts_with`. -/
def String.mStartsWith (s p : String) : Bool := charsStarts s.data p.data

/-- Lexicographic `≤` on character lists by code point, which is SQLite's
BINARY collation on the UTF-8 bytes. -/
def charsLe : List Char → List Char → Bool
  | [], _ => true
  | _ :: _, [] => false
  | a :: as, b :: bs =>
    if a.toNat < b.toNat then true
    else if b.toNat < a.toNat then false
    else charsLe as bs

/-- SQLite BINARY-collation `≤` on strings. -/
def String.mLe (a b : String) : Bool := charsLe a.data b.data

/-- Split a character list on a separator character. -/
def charsSplit (sep : Char) (cur : List Char) : List Char → List (List Char)
  | [] => [cur.reverse]
  | x :: xs =>
    if x = sep then cur.reverse :: charsSplit sep [] xs
    else charsSplit sep (x :: cur) xs

/-- Rust `str::split('.')` on a string. -/
def String.mSplitOnDot (s : String) : List String :=
  (charsSplit '.' [] s.data).map (fun l => ⟨l⟩)

/-- Kernel-computable rational subtraction (`Rat.sub` is `@[irreducible]`
upstream); proven equal to `· - ·` in `ratSub_eq`. -/
def ratSub (a b : ℚ) : ℚ :=
  mkRat (a.num * (b.den : Int) - b.num * (a.den : Int)) (a.den * b.den)

/-- `ratSub` is subtraction. -/
theorem ratSub_eq (a b : ℚ) : ratSub a b = a - b := by
  have ha : ((a.den : ℚ)) ≠ 0 := by exact_mod_cast a.den_nz
  have hb : ((b.den : ℚ)) ≠ 0 := by exact_mod_cast b.den_nz
  rw [ratSub, Rat.mkRat_eq_div]
  push_cast
  conv_rhs => rw [← Rat.num_div_den a, ← Rat.num_div_den b]
  rw [div_sub_div _ _ ha hb]
  ring_nf

namespace SpaceDog

/-- `const LOCAL_SYNC_CLIENT_ID: &str = "local-desktop"` -/
def LOCAL_SYNC_CLIENT_ID : String := "local-desktop"

/-- `const CATALOG_DATASET_DEFAULT: &str = "default_cards"` -/
def CATALOG_DATASET_DEFAULT : String := "default_cards"

/-- `const SCRYFALL_SOURCE_ID: &str = "scryfall_default_cards"` -/
def SCRYFALL_SOURCE_ID : String := "scryfall_default_cards"

/-- `const TCGTRACKING_SOURCE_ID: &str = "tcgtracking_tcgplayer"` -/
def TCGTRACKING_SOURCE_ID : String := "tcgtracking_tcgplayer"

/-- `const CK_SOURCE_ID: &str = "ck_buylist"` -/
def CK_SOURCE_ID : String := "ck_buylist"

/-- `const CONDITION_NM_ID: i64 = 1` -/
def CONDITION_NM_ID : Int := 1

/-- `const FINISH_NONFOIL_ID: i64 = 1` -/
def FINISH_NONFOIL_ID : Int := 1

/-! ## String helpers from the source (`lib.rs` lines 637–691)

Rust byte slicing on the ISO timestamps is modelled with
`String.take`/`String.drop`; the timestamps handled by these helpers are
ASCII, where the two agree.  Rust `str::parse::<i64>` is modelled with
`String.mToInt?` (optional sign followed by digits). -/

/-- `fn normalize_catalog_dataset` (lib.rs:637). -/
def normalizeCatalogDataset (dataset : Option String) : Except String String :=
  let normalized := (dataset.getD CATALOG_DATASET_DEFAULT).mTrim.mToLower
  if normalized = "" then
    .ok CATALOG_DATASET_DEFAULT
  else if normalized ≠ CATALOG_DATASET_DEFAULT then
    .error s!"Unsupported dataset '{normalized}'. Only '{CATALOG_DATASET_DEFAULT}' is currently supported."
  else
    .ok normalized

/-- `fn current_sync_version` (lib.rs:654): `"v" ++ now formatted %y%m%d`.
The clock is the ISO string `now`, so this is its date prefix without
hyphens and without the century digits. -/
def currentSyncVersion (now : String) : String :=
  "v" ++ (((now.take 10).mRemove '-').drop 2)

/-- `fn sync_version_from_iso` (lib.rs:666).  The source falls back to
`current_sync_version()` (the clock); every call site passes the clock
string itself, which the model mirrors. -/
def syncVersionFromIso (timestamp : String) : String :=
  if timestamp.length ≥ 10 then
    let ymd := ((timestamp.drop 2).take 8).mRemove '-'
    if ymd.length = 6 then "v" ++ ymd else currentSyncVersion timestamp
  else
    currentSyncVersion timestamp

/-- `fn captured_ymd_from_iso` (lib.rs:676). -/
def capturedYmdFromIso (timestamp : String) : Option Int :=
  if timestamp.length < 10 then none
  else ((timestamp.take 10).mRemove '-').mToInt?

/-- `fn current_captured_ymd` (lib.rs:658): the clock formatted as
`%Y%m%d` and parsed; with the clock modelled as the ISO string `now`,
this is the date prefix of `now`, with the same `unwrap_or(0)`. -/
def currentCapturedYmd (now : String) : Int :=
  (((now.take 10).mRemove '-').mToInt?).getD 0

/-- `fn captured_ymd_from_sync_version` (lib.rs:683). -/
def capturedYmdFromSyncVersion (syncVersion : String) : Option Int :=
  if syncVersion.length = 7 ∧ syncVersion.mStartsWith "v" then
    let digits := syncVersion.drop 1
    if digits.mAllDigits then ("20" ++ digits).mToInt?
    else none
  else none

end SpaceDog

/-! ## Generic keyed-table operations

Each SQLite table is a list of rows.  `ON CONFLICT ... DO UPDATE` against
a unique key is "update the first row matching the key, else append the
fresh row"; real tables keep the key unique, so at most one row matches. -/

namespace SpaceDog

/-- Replace the first element satisfying `p` by its image under `f`. -/
def updateFirst (p : α → Bool) (f : α → α) : List α → List α
  | [] => []
  | x :: xs => if p x then f x :: xs else x :: updateFirst p f xs

/-- `INSERT ... ON CONFLICT DO UPDATE`: update the first row matching the
conflict key, else append the freshly inserted row. -/
def upsertBy (p : α → Bool) (f : α → α) (fresh : α) (l : List α) : List α :=
  if l.any p then updateFirst p f l else l ++ [fresh]

/-- `INSERT ... ON CONFLICT DO NOTHING`: append the fresh row only when no
row matches the conflict key. -/
def insertIfAbsent (p : α → Bool) (fresh : α) (l : List α) : List α :=
  if l.any p then l else l ++ [fresh]

/-! ## Table rows (`lib.rs` schema as used by the modelled functions) -/

/-- A row of `card_data_card_prices` (the PriceRow fact table).  Unique
index: `(printing_id, IFNULL(condition_id,0), IFNULL(finish_id,0), sync_version)`. -/
structure PriceRow where
  printingId : String
  conditionId : Option Int
  finishId : Option Int
  tcgLow : Option ℚ
  tcgMarket : Option ℚ
  tcgHigh : Option ℚ
  ckSell : Option ℚ
  ckBuylist : Option ℚ
  ckBuylistQuantityCap : Option Int
  syncVersion : String
  capturedYmd : Int
  capturedAt : String
  createdAt : String
deriving DecidableEq, Repr

/-- The conflict key of `card_data_card_prices`: condition and finish ids
enter through `IFNULL(..., 0)`. -/
def PriceRow.keyMatches (r : PriceRow) (printingId : String)
    (conditionId finishId : Option Int) (syncVersion : String) : Bool :=
  r.printingId = printingId ∧ r.conditionId.getD 0 = conditionId.getD 0 ∧
    r.finishId.getD 0 = finishId.getD 0 ∧ r.syncVersion = syncVersion

/-- A row of `card_data_cards` (columns touched by the modelled code). -/
structure CardRow where
  id : String
  oracleId : Option String
  name : String
  manaCost : Option String
  cmc : Option ℚ
  typeLine : Option String
  oracleText : Option String
  reserved : Int
  keywordsJson : Option String
  colorsJson : Option String
  colorIdentityJson : Option String
  latestReleasedAt : Option String
  createdAt : String
  updatedAt : String
deriving DecidableEq, Repr

/-- A row of `card_data_printings` (columns touched by the modelled code). -/
structure PrintingRow where
  id : String
  cardId : String
  oracleId : Option String
  setCode : String
  collectorNumber : String
  lang : String
  rarity : Option String
  layout : Option String
  releasedAt : Option String
  artist : Option String
  imageNormalUrl : Option String
  imageSmallUrl : Option String
  imageArtCropUrl : Option String
  imagePngUrl : Option String
  isToken : Int
  isDigital : Int
  isFoilAvailable : Int
  isNonfoilAvailable : Int
  tcgplayerId : Option Int
  cardmarketId : Option Int
  mtgoId : Option Int
  mtgoFoilId : Option Int
  createdAt : String
  updatedAt : String
deriving DecidableEq, Repr

/-- A row of `card_data_sets`. -/
structure SetRow where
  setCode : String
  setName : String
  updatedAt : String
deriving DecidableEq, Repr

/-- A row of `system_data_sync_client_sync_state`, keyed by
`(client_id, dataset_name)`; the client id is the constant
`LOCAL_SYNC_CLIENT_ID`, so the model keys by dataset name. -/
structure SyncStateRow where
  datasetName : String
  currentVersion : Option String
  stateHash : Option String
  syncedAt : String
  updatedAt : String
deriving DecidableEq, Repr

/-- A row of `system_data_sync_dataset_versions`, keyed by `id`. -/
structure DatasetVersionRow where
  id : String
  sourceId : String
  datasetName : String
  buildVersion : String
  stateHash : Option String
  recordCount : Int
  createdAt : String
deriving DecidableEq, Repr

/-- A row of `system_data_sync_patches` (append-only audit table; the
random UUID primary key carries no information and is omitted). -/
structure PatchRow where
  sourceId : String
  datasetName : String
  fromVersion : Option String
  toVersion : String
  patchHash : Option String
  strategy : String
  addedCount : Int
  updatedCount : Int
  removedCount : Int
  createdAt : String
deriving DecidableEq, Repr

/-- A row of `system_data_sync_patch_apply_history` (append-only; the
random UUID primary key is omitted; `duration_ms`/`error_message` are
always NULL and `result` always `'success'` in the modelled path). -/
structure PatchApplyHistoryRow where
  clientId : String
  datasetName : String
  fromVersion : Option String
  toVersion : String
  strategy : String
  appliedAt : String
deriving DecidableEq, Repr

/-- A row of `system_data_sync_data_sources`, keyed by `id`. -/
structure DataSourceRow where
  id : String
  kind : String
  baseUrl : String
  enabled : Int
  refreshWindowUtc : Option String
  updatedAt : String
deriving DecidableEq, Repr

/-- The database state: every table the modelled functions touch. -/
structure DbState where
  prices : List PriceRow
  cards : List CardRow
  printings : List PrintingRow
  sets : List SetRow
  syncState : List SyncStateRow
  datasetVersions : List DatasetVersionRow
  patches : List PatchRow
  patchHistory : List PatchApplyHistoryRow
  dataSources : List DataSourceRow
deriving DecidableEq, Repr

/-- The empty database (a fresh or fully reset file). -/
def DbState.empty : DbState :=
  ⟨[], [], [], [], [], [], [], [], []⟩

end SpaceDog

namespace SpaceDog

/-! ## State access helpers (`lib.rs` lines 693–794) -/

/-- `fn read_catalog_sync_row` (lib.rs:693): the
`(current_version, state_hash, synced_at)` triple of the dataset's sync
state row, or `(None, None, None)` when the row is absent. -/
def readCatalogSyncRow (s : DbState) (dataset : String) :
    Option String × Option String × Option String :=
  match s.syncState.find? (fun r => r.datasetName == dataset) with
  | some r => (r.currentVersion, r.stateHash, some r.syncedAt)
  | none => (none, none, none)

/-- `fn count_catalog_records_for_version` (lib.rs:713):
`COUNT(DISTINCT printing_id)` over rows of the version whose
`tcg_market` is non-null. -/
def countCatalogRecordsForVersion (s : DbState) (syncVersion : String) : Int :=
  (((s.prices.filter (fun r => r.syncVersion == syncVersion && r.tcgMarket.isSome)).map
    (fun r => r.printingId)).eraseDups).length

/-- `fn count_catalog_records` (lib.rs:726). -/
def countCatalogRecords (s : DbState) (dataset : String) : Int :=
  match (readCatalogSyncRow s dataset).1 with
  | none => 0
  | some version =>
    if version.mTrim = "" then 0 else countCatalogRecordsForVersion s version

/-- The `ON CONFLICT` clause of `write_catalog_sync_state` (lib.rs:746):
overwrite the version pointer, hash and timestamps. -/
def syncRowUpd (now : String) (cv sh : Option String) (r : SyncStateRow) :
    SyncStateRow :=
  { r with currentVersion := cv, stateHash := sh, syncedAt := now, updatedAt := now }

/-- `fn write_catalog_sync_state` (lib.rs:746): upsert the client sync
state row, then (for a non-blank version) upsert the
`system_data_sync_dataset_versions` audit row keyed `dataset:version`. -/
def writeCatalogSyncState (now : String) (s : DbState) (dataset : String)
    (currentVersion stateHash : Option String) : DbState :=
  let syncState' :=
    upsertBy (fun r => r.datasetName == dataset)
      (syncRowUpd now currentVersion stateHash)
      ⟨dataset, currentVersion, stateHash, now, now⟩ s.syncState
  let s := { s with syncState := syncState' }
  match currentVersion with
  | none => s
  | some version =>
    let normalizedVersion := version.mTrim
    if normalizedVersion = "" then s
    else
      let recordCount := countCatalogRecordsForVersion s normalizedVersion
      let rowId := dataset ++ ":" ++ normalizedVersion
      let datasetVersions' :=
        upsertBy (fun r => r.id == rowId)
          (fun r => { r with stateHash := stateHash, recordCount := recordCount,
                             createdAt := now })
          ⟨rowId, SCRYFALL_SOURCE_ID, dataset, normalizedVersion, stateHash, recordCount, now⟩
          s.datasetVersions
      { s with datasetVersions := datasetVersions' }

/-- `fn append_catalog_patch_history` (lib.rs:962): append one row to the
patches audit table and one to the apply-history table
(`total_records` is accepted and ignored, as in the source). -/
def appendCatalogPatchHistory (now : String) (s : DbState) (dataset : String)
    (fromVersion : Option String) (toVersion strategy : String)
    (patchHash : Option String) (addedCount updatedCount removedCount : Int)
    (totalRecords : Int) : DbState :=
  let _ := totalRecords
  { s with
    patches := s.patches ++
      [⟨SCRYFALL_SOURCE_ID, dataset, fromVersion, toVersion, patchHash, strategy,
        addedCount, updatedCount, removedCount, now⟩],
    patchHistory := s.patchHistory ++
      [⟨LOCAL_SYNC_CLIENT_ID, dataset, fromVersion, toVersion, strategy, now⟩] }

/-! ## The state hasher (`fn compute_catalog_state_hash`, lib.rs:915) -/

/-- Modelled from the spec: the cryptographic digest is SHA-256 from the
external `sha2` crate (not part of this repository).  Every claim about
the hash depends only on the digest being a deterministic function of the
byte stream fed to it, so the digest is modelled as the identity
injection on that stream. -/
def sha256Hex (input : String) : String := input

/-- Left-pad a digit string with zeros to six characters. -/
def padZeros6 (s : String) : String :=
  String.mk (List.replicate (6 - s.length) '0') ++ s

/-- Rust `{:.6}` formatting of the market price: six fractional digits.
(The exact rounding of the binary float representation is modelled as
rational rounding; all hashed prices are exact inputs of the model.) -/
def formatRat6 (q : ℚ) : String :=
  -- round(q·10⁶) = ⌊(2·num·10⁶ + den) / (2·den)⌋, computed on num/den so
  -- that the kernel can evaluate it (`Rat.mul`/`round` do not reduce).
  let scaled : Int := Int.ediv (2 * q.num * 1000000 + (q.den : Int)) (2 * (q.den : Int))
  let sign := if scaled < 0 then "-" else ""
  let n := scaled.natAbs
  sign ++ toString (n / 1000000) ++ "." ++ padZeros6 (toString (n % 1000000))

/-- `SELECT ... FROM card_data_printings WHERE id = ?` (primary key). -/
def findPrinting (l : List PrintingRow) (id : String) : Option PrintingRow :=
  l.find? (fun p => p.id == id)

/-- `SELECT ... FROM card_data_cards WHERE id = ?` (primary key). -/
def findCard (l : List CardRow) (id : String) : Option CardRow :=
  l.find? (fun c => c.id == id)

/-- One line fed to the state hasher (lib.rs:952):
`id|name|set|collector|image|market:.6|captured_at\n`. -/
def hashLine (p : PrintingRow) (c : CardRow) (cp : PriceRow) (market : ℚ) : String :=
  p.id ++ "|" ++ c.name ++ "|" ++ p.setCode ++ "|" ++ p.collectorNumber ++ "|" ++
    (p.imageNormalUrl.getD "") ++ "|" ++ formatRat6 market ++ "|" ++ cp.capturedAt ++ "\n"

/-- The hash query's join: price rows of the version with non-null
`tcg_market`, inner-joined to their printing and card, as
`(printing id, line)` pairs in table scan order. -/
def hashJoinRows (s : DbState) (syncVersion : String) : List (String × String) :=
  s.prices.filterMap (fun cp =>
    if cp.syncVersion == syncVersion then
      match cp.tcgMarket with
      | some market =>
        (findPrinting s.printings cp.printingId).bind (fun p =>
          (findCard s.cards p.cardId).map (fun c => (p.id, hashLine p c cp market)))
      | none => none
    else none)

/-- `ORDER BY p.id` (SQLite BINARY collation = code point order). -/
def sortHashRows (rows : List (String × String)) : List (String × String) :=
  rows.insertionSort (fun a b => a.1.mLe b.1 = true)

/-- `fn compute_catalog_state_hash` (lib.rs:915): digest of the dataset
name, a newline, and the sorted hash lines of the current version; only
the dataset name and newline when there is no current version. -/
def computeCatalogStateHash (s : DbState) (dataset : String) : String :=
  match (readCatalogSyncRow s dataset).1 with
  | none => sha256Hex (dataset ++ "\n")
  | some syncVersion =>
    sha256Hex (dataset ++ "\n" ++
      String.join ((sortHashRows (hashJoinRows s syncVersion)).map (fun r => r.2)))

end SpaceDog

namespace SpaceDog

/-! ## The vendor merge engine (`fn upsert_compact_price_row`, lib.rs:1523) -/

/-- The `clean_price` closure (lib.rs:1538): a price survives only when
finite and non-negative; the surviving rational is what is stored. -/
def cleanPrice (value : Option F64) : Option ℚ :=
  value.bind (fun v => if v.isFinite ∧ v.val ≥ 0 then some v.val else none)

/-- The merge function of the `ON CONFLICT DO UPDATE` clause of
`upsert_compact_price_row` (lib.rs:1570): coalesce each of the six
channels with the existing row and overwrite the capture metadata. -/
def mergePriceRow (tcgLow tcgMarket tcgHigh ckSell ckBuylist : Option ℚ)
    (ckBuylistQuantityCap : Option Int) (capturedYmd : Int) (capturedAt : String)
    (r : PriceRow) : PriceRow :=
  { r with
    tcgLow := tcgLow <|> r.tcgLow,
    tcgMarket := tcgMarket <|> r.tcgMarket,
    tcgHigh := tcgHigh <|> r.tcgHigh,
    ckSell := ckSell <|> r.ckSell,
    ckBuylist := ckBuylist <|> r.ckBuylist,
    ckBuylistQuantityCap := ckBuylistQuantityCap <|> r.ckBuylistQuantityCap,
    capturedYmd := capturedYmd, capturedAt := capturedAt, createdAt := capturedAt }

/-- The table-level body of `fn upsert_compact_price_row` (lib.rs:1523):
filter the five price channels through `clean_price`; if all six
channels are then absent the statement is a no-op; otherwise insert, or
on conflict merge into the existing row. -/
def upsertCompactPrices (printingId : String) (conditionId finishId : Option Int)
    (tcgLow tcgMarket tcgHigh ckSell ckBuylist : Option F64)
    (ckBuylistQuantityCap : Option Int)
    (syncVersion : String) (capturedYmd : Int) (capturedAt : String)
    (prices : List PriceRow) : List PriceRow :=
  let tcgLow := cleanPrice tcgLow
  let tcgMarket := cleanPrice tcgMarket
  let tcgHigh := cleanPrice tcgHigh
  let ckSell := cleanPrice ckSell
  let ckBuylist := cleanPrice ckBuylist
  if tcgLow = none ∧ tcgMarket = none ∧ tcgHigh = none ∧ ckSell = none ∧
      ckBuylist = none ∧ ckBuylistQuantityCap = none then
    prices
  else
    let fresh : PriceRow :=
      ⟨printingId, conditionId, finishId, tcgLow, tcgMarket, tcgHigh, ckSell,
        ckBuylist, ckBuylistQuantityCap, syncVersion, capturedYmd, capturedAt, capturedAt⟩
    upsertBy (fun r => r.keyMatches printingId conditionId finishId syncVersion)
      (mergePriceRow tcgLow tcgMarket tcgHigh ckSell ckBuylist
        ckBuylistQuantityCap capturedYmd capturedAt)
      fresh prices

/-- `fn upsert_compact_price_row` (lib.rs:1523) as a state operation. -/
def upsertCompactPriceRow (s : DbState) (printingId : String)
    (conditionId finishId : Option Int)
    (tcgLow tcgMarket tcgHigh ckSell ckBuylist : Option F64)
    (ckBuylistQuantityCap : Option Int)
    (syncVersion : String) (capturedYmd : Int) (capturedAt : String) : DbState :=
  let prices' := upsertCompactPrices printingId conditionId finishId
    tcgLow tcgMarket tcgHigh ckSell ckBuylist ckBuylistQuantityCap
    syncVersion capturedYmd capturedAt s.prices
  { s with prices := prices' }

/-! ## Catalog records (`fn upsert_catalog_record`, lib.rs:796) -/

/-- `struct CatalogPriceRecordDto` (lib.rs:440). -/
structure CatalogPriceRecordDto where
  scryfallId : String
  name : String
  setCode : String
  collectorNumber : String
  imageUrl : Option String
  marketPrice : F64
  lowPrice : Option F64
  midPrice : Option F64
  highPrice : Option F64
  updatedAt : String
deriving DecidableEq, Repr

/-- `row.scryfall_id.mTrim().to_lowercase()` (lib.rs:801). -/
def recordNormId (row : CatalogPriceRecordDto) : String :=
  row.scryfallId.mTrim.mToLower

/-- The effective `updated_at` of a record (lib.rs:805): the trimmed
record value, or the clock when blank. -/
def recordUpdatedAt (now : String) (row : CatalogPriceRecordDto) : String :=
  if row.updatedAt.mTrim = "" then now else row.updatedAt.mTrim

/-- The `captured_ymd` of a record (lib.rs:810). -/
def recordCapturedYmd (now : String) (row : CatalogPriceRecordDto)
    (syncVersion : String) : Int :=
  ((capturedYmdFromSyncVersion syncVersion).orElse
    (fun _ => capturedYmdFromIso (recordUpdatedAt now row))).getD (currentCapturedYmd now)

/-- The `card_data_sets` statement of `upsert_catalog_record`
(lib.rs:830): `set_name = COALESCE(NULLIF(excluded.set_name, ''), old)`. -/
def recordSetsEffect (now : String) (row : CatalogPriceRecordDto)
    (sets : List SetRow) : List SetRow :=
  let normalizedSet := row.setCode.mTrim.mToLower
  let updatedAt := recordUpdatedAt now row
  let inferredSetName := if normalizedSet = "" then "UNKNOWN" else normalizedSet.mToUpper
  upsertBy (fun r => r.setCode == normalizedSet)
    (fun r => { r with
      setName := if inferredSetName = "" then r.setName else inferredSetName,
      updatedAt := updatedAt })
    ⟨normalizedSet, inferredSetName, updatedAt⟩ sets

/-- The card id a record resolves to (lib.rs:841–852): the existing
printing's `card_id`, else `scryfall:<id>`. -/
def cardKeyFromPrintings (printings : List PrintingRow)
    (row : CatalogPriceRecordDto) : String :=
  (((findPrinting printings (recordNormId row)).map (fun p => p.cardId))).getD
    ("scryfall:" ++ recordNormId row)

/-- The `ON CONFLICT` clause of the cards statement (lib.rs:861):
update name and `updated_at`. -/
def cardUpd (now : String) (row : CatalogPriceRecordDto) (c : CardRow) : CardRow :=
  { c with name := row.name.mTrim, updatedAt := recordUpdatedAt now row }

/-- The inserted card shell of the cards statement (lib.rs:854). -/
def cardFresh (now : String) (row : CatalogPriceRecordDto) (cardId : String) :
    CardRow :=
  ⟨cardId, none, row.name.mTrim, none, none, none, none, 0, none, none, none,
    none, recordUpdatedAt now row, recordUpdatedAt now row⟩

/-- The `card_data_cards` statement of `upsert_catalog_record`
(lib.rs:854): insert a card shell, or on conflict update name and
`updated_at`.  The key is resolved against the printings table as it
stood before this record's printing upsert. -/
def recordCardsEffect (now : String) (row : CatalogPriceRecordDto)
    (printings : List PrintingRow) (cards : List CardRow) : List CardRow :=
  let cardId := cardKeyFromPrintings printings row
  upsertBy (fun c => c.id == cardId) (cardUpd now row)
    (cardFresh now row cardId) cards

/-- The `ON CONFLICT` clause of the printings statement (lib.rs:879):
keep `card_id` (`COALESCE(existing, excluded)` over a non-null column),
overwrite set/collector number, coalesce the image. -/
def printUpd (now : String) (row : CatalogPriceRecordDto) (p : PrintingRow) :
    PrintingRow :=
  { p with
    cardId := p.cardId,
    setCode := row.setCode.mTrim.mToLower,
    collectorNumber := row.collectorNumber.mTrim,
    imageNormalUrl := row.imageUrl <|> p.imageNormalUrl,
    updatedAt := recordUpdatedAt now row }

/-- The inserted printing row of the printings statement (lib.rs:868). -/
def printFresh (now : String) (row : CatalogPriceRecordDto) (cardId : String) :
    PrintingRow :=
  ⟨recordNormId row, cardId, none, row.setCode.mTrim.mToLower,
    row.collectorNumber.mTrim, "en", none, none, none, none, row.imageUrl,
    none, none, none, 0, 0, 1, 1, none, none, none, none,
    recordUpdatedAt now row, recordUpdatedAt now row⟩

/-- The `card_data_printings` statement of `upsert_catalog_record`
(lib.rs:868). -/
def recordPrintingsEffect (now : String) (row : CatalogPriceRecordDto)
    (printings : List PrintingRow) : List PrintingRow :=
  upsertBy (fun p => p.id == recordNormId row) (printUpd now row)
    (printFresh now row (cardKeyFromPrintings printings row)) printings

/-- The compact-price statement of `upsert_catalog_record`
(lib.rs:894–911): NM condition, nonfoil finish, low/market/high with
low/high defaulting to the market price. -/
def recordPricesEffect (now : String) (row : CatalogPriceRecordDto)
    (syncVersion : String) (prices : List PriceRow) : List PriceRow :=
  let lowPrice := row.lowPrice.getD row.marketPrice
  let highPrice := row.highPrice.getD row.marketPrice
  upsertCompactPrices (recordNormId row) (some CONDITION_NM_ID)
    (some FINISH_NONFOIL_ID) (some lowPrice) (some row.marketPrice)
    (some highPrice) none none none syncVersion
    (recordCapturedYmd now row syncVersion) (recordUpdatedAt now row) prices

/-- The successful branch of `fn upsert_catalog_record`: the four table
statements in source order (the card id is resolved before the printing
upsert, exactly as the source reads `existing_card_id` first). -/
def applyCatalogRecordOk (now : String) (row : CatalogPriceRecordDto)
    (syncVersion : String) (s : DbState) : DbState :=
  { s with
    sets := recordSetsEffect now row s.sets,
    cards := recordCardsEffect now row s.printings s.cards,
    printings := recordPrintingsEffect now row s.printings,
    prices := recordPricesEffect now row syncVersion s.prices }

/-- `fn upsert_catalog_record` (lib.rs:796).  Fails on an empty id or a
non-finite/negative market price; otherwise upserts the set, card and
printing rows and merges a compact price row (NM condition, nonfoil
finish, low/market/high channels). -/
def upsertCatalogRecord (now : String) (s : DbState) (row : CatalogPriceRecordDto)
    (syncVersion : String) : Except String DbState :=
  if recordNormId row = "" then
    .error "Catalog row has empty scryfallId."
  else if ¬ (row.marketPrice.isFinite ∧ row.marketPrice.val ≥ 0) then
    -- Rust prints the offending f64; the model prints its rational value.
    .error s!"Catalog row {row.scryfallId} has invalid marketPrice: {row.marketPrice.val}"
  else
    .ok (applyCatalogRecordOk now row syncVersion s)

/-- The record loops of `apply_catalog_snapshot` / `apply_catalog_patch`:
upsert each record in order, stopping at the first failure. -/
def upsertCatalogRecords (now : String) (syncVersion : String)
    (rows : List CatalogPriceRecordDto) (s : DbState) : Except String DbState :=
  rows.foldlM (fun st r => upsertCatalogRecord now st r syncVersion) s

/-- `DELETE FROM card_data_card_prices WHERE sync_version = ?`. -/
def deletePricesForVersion (s : DbState) (syncVersion : String) : DbState :=
  { s with prices := s.prices.filter (fun r => r.syncVersion != syncVersion) }

end SpaceDog

namespace SpaceDog

/-! ## The patch applier (`apply_catalog_snapshot` lib.rs:3949,
`apply_catalog_patch` lib.rs:4026) -/

/-- `struct CatalogSnapshotApplyInput` (lib.rs:513). -/
structure CatalogSnapshotApplyInput where
  dataset : Option String
  version : String
  records : List CatalogPriceRecordDto
  snapshotHash : Option String
  strategy : Option String
deriving DecidableEq, Repr

/-- `struct CatalogPatchApplyInput` (lib.rs:500). -/
structure CatalogPatchApplyInput where
  dataset : Option String
  fromVersion : String
  toVersion : String
  added : List CatalogPriceRecordDto
  updated : List CatalogPriceRecordDto
  removed : List String
  patchHash : Option String
  strategy : Option String
deriving DecidableEq, Repr

/-- `struct CatalogApplyResultDto` (lib.rs:468). -/
structure CatalogApplyResultDto where
  dataset : String
  fromVersion : Option String
  toVersion : String
  strategy : String
  patchHash : Option String
  stateHash : String
  totalRecords : Int
  addedCount : Int
  updatedCount : Int
  removedCount : Int
deriving DecidableEq, Repr

/-- `fn apply_catalog_snapshot` (lib.rs:3949), inside its transaction:
validate, delete the target version's rows, upsert all records,
recompute the hash, enforce the optional expected hash, then persist the
pointer, counts and audit rows. -/
def applyCatalogSnapshot (now : String) (s : DbState)
    (input : CatalogSnapshotApplyInput) :
    Except String (DbState × CatalogApplyResultDto) := do
  let normalizedDataset ← normalizeCatalogDataset input.dataset
  let toVersion := input.version.mTrim
  if toVersion = "" then
    throw "Catalog snapshot apply requires version."
  let strategy := (input.strategy.getD "full").mTrim.mToLower
  let fromVersion := (readCatalogSyncRow s normalizedDataset).1
  let s := deletePricesForVersion s toVersion
  let s ← upsertCatalogRecords now toVersion input.records s
  let s := writeCatalogSyncState now s normalizedDataset (some toVersion) none
  let computedStateHash := computeCatalogStateHash s normalizedDataset
  if let some expectedHash := input.snapshotHash then
    if expectedHash.mTrim ≠ "" ∧ expectedHash ≠ computedStateHash then
      throw s!"Snapshot hash mismatch. expected {expectedHash}, computed {computedStateHash}"
  let s := writeCatalogSyncState now s normalizedDataset (some toVersion)
    (some computedStateHash)
  let totalRecords := countCatalogRecords s normalizedDataset
  let s := appendCatalogPatchHistory now s normalizedDataset fromVersion toVersion
    strategy input.snapshotHash (input.records.length : Int) 0 0 totalRecords
  let dto : CatalogApplyResultDto :=
    { dataset := normalizedDataset
      fromVersion := fromVersion
      toVersion := toVersion
      strategy := strategy
      patchHash := input.snapshotHash
      stateHash := computedStateHash
      totalRecords := totalRecords
      addedCount := (input.records.length : Int)
      updatedCount := 0
      removedCount := 0 }
  return (s, dto)

/-- The persisted semantics of the snapshot command: the transaction is
rolled back when the command throws, so the state is unchanged. -/
def applyCatalogSnapshotRun (now : String) (s : DbState)
    (input : CatalogSnapshotApplyInput) :
    DbState × Except String CatalogApplyResultDto :=
  match applyCatalogSnapshot now s input with
  | .ok (s', dto) => (s', .ok dto)
  | .error e => (s, .error e)

/-- `fn apply_catalog_patch` (lib.rs:4026), inside its transaction:
validate, enforce the version chain against the current pointer
(`"none"` when absent), delete the target version's rows, copy every
`from_version` row forward to `to_version`, apply removes then
added/updated upserts, then persist pointer, counts and audit rows. -/
def applyCatalogPatch (now : String) (s : DbState)
    (input : CatalogPatchApplyInput) :
    Except String (DbState × CatalogApplyResultDto) := do
  let normalizedDataset ← normalizeCatalogDataset input.dataset
  let fromVersion := input.fromVersion.mTrim
  let toVersion := input.toVersion.mTrim
  if fromVersion = "" ∨ toVersion = "" then
    throw "Catalog patch apply requires fromVersion and toVersion."
  let strategy := (input.strategy.getD "chain").mTrim.mToLower
  let currentVersionText := ((readCatalogSyncRow s normalizedDataset).1).getD "none"
  if currentVersionText ≠ fromVersion then
    throw s!"Catalog version mismatch. Local is {currentVersionText}, patch expects {fromVersion}."
  let toCapturedYmd := (capturedYmdFromSyncVersion toVersion).getD (currentCapturedYmd now)
  let toCapturedAt := now
  let s := deletePricesForVersion s toVersion
  let carried := (s.prices.filter (fun r => r.syncVersion == fromVersion)).map
    (fun r => { r with syncVersion := toVersion, capturedYmd := toCapturedYmd,
                       capturedAt := toCapturedAt, createdAt := toCapturedAt })
  let s := { s with prices := s.prices ++ carried }
  let s := input.removed.foldl (fun (st : DbState) id =>
    let trimmed := id.mTrim
    if trimmed = "" then st
    else { st with prices := st.prices.filter (fun r =>
      !(r.syncVersion == toVersion && r.printingId == trimmed.mToLower)) }) s
  let s ← upsertCatalogRecords now toVersion input.added s
  let s ← upsertCatalogRecords now toVersion input.updated s
  let s := writeCatalogSyncState now s normalizedDataset (some toVersion) none
  let computedStateHash := computeCatalogStateHash s normalizedDataset
  let s := writeCatalogSyncState now s normalizedDataset (some toVersion)
    (some computedStateHash)
  let totalRecords := countCatalogRecords s normalizedDataset
  let s := appendCatalogPatchHistory now s normalizedDataset (some fromVersion)
    toVersion strategy input.patchHash (input.added.length : Int)
    (input.updated.length : Int) (input.removed.length : Int) totalRecords
  let dto : CatalogApplyResultDto :=
    { dataset := normalizedDataset
      fromVersion := some fromVersion
      toVersion := toVersion
      strategy := strategy
      patchHash := input.patchHash
      stateHash := computedStateHash
      totalRecords := totalRecords
      addedCount := (input.added.length : Int)
      updatedCount := (input.updated.length : Int)
      removedCount := (input.removed.length : Int) }
  return (s, dto)

/-- The persisted semantics of the patch command: the transaction is
rolled back when the command throws, so the state is unchanged. -/
def applyCatalogPatchRun (now : String) (s : DbState)
    (input : CatalogPatchApplyInput) :
    DbState × Except String CatalogApplyResultDto :=
  match applyCatalogPatch now s input with
  | .ok (s', dto) => (s', .ok dto)
  | .error e => (s, .error e)

end SpaceDog

namespace SpaceDog

/-! ## The trend calculator (`fn build_price_trend_by_column`, lib.rs:1337) -/

/-- The five selectable price columns of `card_data_card_prices`
(`fn price_column_from_source_key` only ever produces these). -/
inductive PriceColumn where
  | tcgLow
  | tcgMarket
  | tcgHigh
  | ckSell
  | ckBuylist
deriving DecidableEq, Repr

/-- Read the selected column of a price row. -/
def PriceRow.column (r : PriceRow) : PriceColumn → Option ℚ
  | .tcgLow => r.tcgLow
  | .tcgMarket => r.tcgMarket
  | .tcgHigh => r.tcgHigh
  | .ckSell => r.ckSell
  | .ckBuylist => r.ckBuylist

/-- `fn price_column_from_source_key` (lib.rs:1326). -/
def priceColumnFromSourceKey (sourceId : String) : PriceColumn :=
  match sourceId.mTrim.mToLower with
  | "tcg-low" => .tcgLow
  | "tcg-mid" => .tcgMarket
  | "tcg-high" => .tcgHigh
  | "ck-sell" => .ckSell
  | "ck-buylist" => .ckBuylist
  | _ => .tcgMarket

/-- `struct PriceTrend` (lib.rs:522). -/
structure PriceTrend where
  currentPrice : Option ℚ
  previousPrice : Option ℚ
  priceDelta : Option ℚ
  priceDirection : String
  lastPriceAt : Option String
deriving DecidableEq, Repr

/-- The trend query (lib.rs:1342): rows of the printing whose selected
column is non-null, over all sync versions, ordered by `captured_at`
descending (SQLite BINARY collation; ties keep scan order), truncated to
two, projected to `(column value, captured_at)`. -/
def trendObservations (s : DbState) (scryfallId : String) (column : PriceColumn) :
    List (ℚ × String) :=
  let rows := s.prices.filter (fun r =>
    r.printingId == scryfallId && (r.column column).isSome)
  let sorted := rows.insertionSort (fun a b => b.capturedAt.mLe a.capturedAt = true)
  (sorted.take 2).filterMap (fun r => (r.column column).map (fun q => (q, r.capturedAt)))

/-- `fn build_price_trend_by_column` (lib.rs:1337). -/
def buildPriceTrendByColumn (s : DbState) (scryfallId : String)
    (column : PriceColumn) : PriceTrend :=
  let prices := trendObservations s scryfallId column
  let currentPrice := (prices.get? 0).map (fun entry => entry.1)
  let previousPrice := (prices.get? 1).map (fun entry => entry.1)
  let priceDelta :=
    match currentPrice, previousPrice with
    | some current, some previous => some (ratSub current previous)
    | _, _ => none
  let priceDirection :=
    match priceDelta with
    | some delta =>
      if delta > mkRat 9 1000 then "up"
      else if delta < -(mkRat 9 1000) then "down"
      else "flat"
    | none => "none"
  { currentPrice := currentPrice
    previousPrice := previousPrice
    priceDelta := priceDelta
    priceDirection := priceDirection
    lastPriceAt := (prices.get? 0).map (fun entry => entry.2) }

end SpaceDog

namespace SpaceDog

/-! ## Card Kingdom feed helpers (`lib.rs` lines 1599–1608, 4315) -/

/-- `const CK_PRICELIST_URL` (lib.rs:23). -/
def CK_PRICELIST_URL : String := "https://api.cardkingdom.com/api/v2/pricelist"

/-- `struct CkPricelistItem` (lib.rs:341). -/
structure CkPricelistItem where
  scryfallId : Option String
  isFoil : Option String
  priceBuy : Option String
  priceSell : Option String
  qtyBuying : Option Int
  url : Option String
deriving DecidableEq, Repr

/-- `fn parse_ck_bool` (lib.rs:1599). -/
def parseCkBool (value : Option String) : Bool :=
  let t := (value.getD "").mTrim.mToLower
  t = "true" ∨ t = "1" ∨ t = "yes" ∨ t = "y"

/-- The unsigned part of a decimal literal as a rational. -/
def parseDecimalCore? (rest : String) : Option ℚ :=
  match rest.mSplitOnDot with
  | [ip] =>
    if ip ≠ "" ∧ ip.mAllDigits then some (mkRat ((ip.mToNat?).getD 0 : Int) 1)
    else none
  | [ip, fp] =>
    if (ip ≠ "" ∨ fp ≠ "") ∧ ip.mAllDigits ∧ fp.mAllDigits then
      some (mkRat (((ip.mToNat?).getD 0 * 10 ^ fp.length + (fp.mToNat?).getD 0 : Nat) : Int)
        (10 ^ fp.length))
    else none
  | _ => none

/-- Modelled from the spec: Rust `str::parse::<f64>` (standard library,
not repository code), restricted to the plain decimal literals the
Card Kingdom pricelist carries: optional sign, digits, optional
fractional digits. -/
def parseDecimal? (s : String) : Option ℚ :=
  if s.mStartsWith "-" then (parseDecimalCore? (s.drop 1)).map (fun q => -q)
  else if s.mStartsWith "+" then parseDecimalCore? (s.drop 1)
  else parseDecimalCore? s

/-- `fn parse_ck_price` (lib.rs:1606): strip `$`, parse, default `0.0`. -/
def parseCkPrice (value : Option String) : ℚ :=
  let text := ((value.getD "").mTrim).mRemove '$'
  (parseDecimal? text).getD 0

/-- `struct CkPriceSyncResultDto` (lib.rs:333). -/
structure CkPriceSyncResultDto where
  scanned : Int
  upsertedBuylist : Int
  upsertedSell : Int
  skipped : Int
deriving DecidableEq, Repr

/-- One iteration of the pricelist loop in
`fn sync_ck_prices_into_card_data` (lib.rs:4338–4410). -/
def ckSyncRow (syncVersion : String) (capturedYmd : Int) (now : String)
    (acc : DbState × CkPriceSyncResultDto) (row : CkPricelistItem) :
    DbState × CkPriceSyncResultDto :=
  let (s, counters) := acc
  let counters := { counters with scanned := counters.scanned + 1 }
  let scryfallId := (row.scryfallId.getD "").mTrim.mToLower
  if scryfallId = "" then
    (s, { counters with skipped := counters.skipped + 1 })
  else if (findPrinting s.printings scryfallId).isNone then
    (s, { counters with skipped := counters.skipped + 1 })
  else
    let buyPrice := parseCkPrice row.priceBuy
    let sellPrice := parseCkPrice row.priceSell
    let finishId : Int := if parseCkBool row.isFoil then 2 else FINISH_NONFOIL_ID
    let withBuy :=
      if buyPrice > 0 then
        (upsertCompactPriceRow s scryfallId (some CONDITION_NM_ID) (some finishId)
          none none none none (some (fin64 buyPrice)) (some (row.qtyBuying.getD 0))
          syncVersion capturedYmd now,
         { counters with upsertedBuylist := counters.upsertedBuylist + 1 })
      else (s, counters)
    let s := withBuy.1
    let counters := withBuy.2
    let withSell :=
      if sellPrice > 0 then
        (upsertCompactPriceRow s scryfallId (some CONDITION_NM_ID) (some finishId)
          none none none (some (fin64 sellPrice)) none none
          syncVersion capturedYmd now,
         { counters with upsertedSell := counters.upsertedSell + 1 })
      else (s, counters)
    let s := withSell.1
    let counters := withSell.2
    if buyPrice ≤ 0 ∧ sellPrice ≤ 0 then
      (s, { counters with skipped := counters.skipped + 1 })
    else (s, counters)

/-- `fn sync_ck_prices_into_card_data` (lib.rs:4315).  The pricelist
fetch (`load_ck_pricelist_items`) is the feed oracle; a fetch failure
propagates before any state change; an empty pricelist short-circuits;
otherwise the whole loop runs in one transaction (its body cannot fail
in the model, so it always commits). -/
def syncCkPricesIntoCardData (now : String)
    (fetch : Except String (List CkPricelistItem)) (s : DbState) :
    DbState × Except String CkPriceSyncResultDto :=
  match fetch with
  | .error e => (s, .error e)
  | .ok rows =>
    if rows.isEmpty then
      (s, .ok ⟨0, 0, 0, 0⟩)
    else
      let syncVersion := syncVersionFromIso now
      let capturedYmd := (capturedYmdFromIso now).getD (currentCapturedYmd now)
      let result := rows.foldl (ckSyncRow syncVersion capturedYmd now) (s, ⟨0, 0, 0, 0⟩)
      (result.1, .ok result.2)

end SpaceDog

namespace SpaceDog

/-! ## TCGTracking feed payloads (`lib.rs` lines 356–418).  The Rust
`BTreeMap`s are modelled as association lists in ascending key order;
`.values()` iterates that order and `.get` is an association lookup. -/

/-- `struct TcgTrackingSetListItem` (lib.rs:362). -/
structure TcgTrackingSetListItem where
  id : Int
deriving DecidableEq, Repr

/-- `struct TcgTrackingProductItem` (lib.rs:374). -/
structure TcgTrackingProductItem where
  id : Int
  scryfallId : Option String
deriving DecidableEq, Repr

/-- `struct TcgTrackingPricePoint` (lib.rs:400). -/
structure TcgTrackingPricePoint where
  low : Option F64
  market : Option F64
deriving DecidableEq, Repr

/-- `struct TcgTrackingPriceByFinish` (lib.rs:392). -/
structure TcgTrackingPriceByFinish where
  normal : Option TcgTrackingPricePoint
  foil : Option TcgTrackingPricePoint
deriving DecidableEq, Repr

/-- `struct TcgTrackingPriceItem` (lib.rs:387). -/
structure TcgTrackingPriceItem where
  tcg : Option TcgTrackingPriceByFinish
deriving DecidableEq, Repr

/-- `struct TcgTrackingSkuItem` (lib.rs:413). -/
structure TcgTrackingSkuItem where
  cnd : Option String
  var : Option String
  lng : Option String
  hi : Option F64
deriving DecidableEq, Repr

/-- `struct TcgTrackingSetProductsResponse` (lib.rs:367). -/
structure TcgTrackingSetProductsResponse where
  setId : Int
  products : List (String × TcgTrackingProductItem)
deriving DecidableEq, Repr

/-- `struct TcgTrackingSetPricingResponse` (lib.rs:380). -/
structure TcgTrackingSetPricingResponse where
  setId : Int
  prices : List (String × TcgTrackingPriceItem)
deriving DecidableEq, Repr

/-- `struct TcgTrackingSetSkusResponse` (lib.rs:406). -/
structure TcgTrackingSetSkusResponse where
  setId : Int
  products : List (String × List (String × TcgTrackingSkuItem))
deriving DecidableEq, Repr

/-- The SKU-high selection closure of `sync_all_sources_now`
(lib.rs:4518–4535): scan the product's SKUs; among NM/EN SKUs with a
`hi` price, return the default ("N") variant's price immediately, else
remember the price and fall back to the last one remembered. -/
def selectSkuHigh : List (String × TcgTrackingSkuItem) → Option F64 → Option F64
  | [], preferred => preferred
  | (_, sku) :: rest, preferred =>
    let cnd := ((sku.cnd.getD "").mTrim).mToUpper
    let lng := ((sku.lng.getD "").mTrim).mToUpper
    if cnd ≠ "NM" ∨ lng ≠ "EN" then
      selectSkuHigh rest preferred
    else
      match sku.hi with
      | some value =>
        let variant := ((sku.var.getD "N").mTrim).mToUpper
        if variant = "N" then some value else selectSkuHigh rest (some value)
      | none => selectSkuHigh rest preferred

/-- The per-product body of the TCGTracking loop (lib.rs:4481–4557),
accumulating `(state, products_matched, price_upserts)`. -/
def tcgProcessProduct (syncVersion : String) (capturedYmd : Int)
    (startedAt : String) (pricing : TcgTrackingSetPricingResponse)
    (skus : TcgTrackingSetSkusResponse) (acc : DbState × Int × Int)
    (product : TcgTrackingProductItem) : DbState × Int × Int :=
  let (s, matched, upserts) := acc
  match product.scryfallId.map (fun v => v.mTrim.mToLower) with
  | none => (s, matched, upserts)
  | some scryfallId =>
    if (findPrinting s.printings scryfallId).isNone then
      (s, matched, upserts)
    else
      let matched := matched + 1
      let productKey := toString product.id
      let pricingRow := (pricing.prices.find? (fun e => e.1 == productKey)).map
        (fun e => e.2)
      let skuMap := (skus.products.find? (fun e => e.1 == productKey)).map
        (fun e => e.2)
      let normal := (pricingRow.bind (fun r => r.tcg)).bind (fun t => t.normal)
      let foil := (pricingRow.bind (fun r => r.tcg)).bind (fun t => t.foil)
      match normal <|> foil with
      | none => (s, matched, upserts)
      | some chosenPrice =>
        let market := chosenPrice.market <|> chosenPrice.low
        let low := chosenPrice.low <|> chosenPrice.market
        let high := skuMap.bind (fun rows => selectSkuHigh rows none)
        if market.isSome ∨ low.isSome ∨ high.isSome then
          let s := upsertCompactPriceRow s scryfallId (some CONDITION_NM_ID)
            (some FINISH_NONFOIL_ID) low market high none none none
            syncVersion capturedYmd startedAt
          let upserts := upserts +
            (([market, low, high].filter Option.isSome).length : Int)
          (s, matched, upserts)
        else (s, matched, upserts)

end SpaceDog

namespace SpaceDog

/-! ## Scryfall bulk metadata (`lib.rs` lines 256–297, 1997–2492) -/

/-- `struct ScryfallImageUris` (lib.rs:288). -/
structure ScryfallImageUris where
  normal : Option String
  small : Option String
  artCrop : Option String
deriving DecidableEq, Repr

/-- `struct ScryfallCardFace` (lib.rs:295). -/
structure ScryfallCardFace where
  imageUris : Option ScryfallImageUris
deriving DecidableEq, Repr

/-- `struct ScryfallCollectionCard` (lib.rs:257). -/
structure ScryfallCollectionCard where
  id : String
  name : Option String
  oracleId : Option String
  set : Option String
  setName : Option String
  collectorNumber : Option String
  releasedAt : Option String
  lang : Option String
  manaCost : Option String
  typeLine : Option String
  oracleText : Option String
  reserved : Option Bool
  keywords : Option (List String)
  colors : Option (List String)
  colorIdentity : Option (List String)
  cmc : Option F64
  rarity : Option String
  layout : Option String
  artist : Option String
  tcgplayerId : Option Int
  cardmarketId : Option Int
  mtgoId : Option Int
  mtgoFoilId : Option Int
  digital : Option Bool
  finishes : Option (List String)
  imageUris : Option ScryfallImageUris
  cardFaces : Option (List ScryfallCardFace)
deriving DecidableEq, Repr

/-- `.as_deref().map(trim).filter(nonempty)`. -/
def optTrimNonempty (v : Option String) : Option String :=
  (v.map String.mTrim).filter (fun t => t ≠ "")

/-- `.as_deref().map(trim.to_lowercase).filter(nonempty)`. -/
def optTrimLowerNonempty (v : Option String) : Option String :=
  (v.map (fun t => t.mTrim.mToLower)).filter (fun t => t ≠ "")

/-- `.filter(nonempty).unwrap_or(default)` after trimming. -/
def orDefaultTrim (v : Option String) (dflt : String) : String :=
  (optTrimNonempty v).getD dflt

/-- Modelled from the spec: `serde_json::to_string` of a `Vec<String>`
(external crate).  The claims never inspect the encoding; it only needs
to be a deterministic function of the list. -/
def jsonStringArray (l : List String) : String :=
  let escape : String → String := fun s =>
    String.join (s.data.map (fun c =>
      if c = '"' ∨ c = '\\' then String.mk ['\\', c] else String.singleton c))
  "[" ++ String.intercalate "," (l.map (fun v => "\"" ++ escape v ++ "\"")) ++ "]"

/-- `if b { 1 } else { 0 }`. -/
def bool01 (b : Bool) : Int := if b then 1 else 0

/-- `if s.is_empty() { None } else { Some(s) }`. -/
def emptyToNone (s : String) : Option String := if s = "" then none else some s

/-- The 27-component comparison signature of
`fn upsert_scryfall_oracle_if_changed` (lib.rs:2289–2404): the
`serde_json::json!` arrays compare equal exactly when componentwise
equal. -/
structure OracleSignature where
  name : String
  manaCost : String
  typeLine : String
  oracleText : String
  cmc : ℚ
  reserved : Int
  keywordsJson : String
  colorsJson : String
  colorIdentityJson : String
  latestReleasedAt : String
  setCode : String
  collectorNumber : String
  lang : String
  rarity : String
  layout : String
  releasedAt : String
  artist : String
  imageNormal : String
  imageSmall : String
  imageArtCrop : String
  isDigital : Int
  isFoilAvailable : Int
  isNonfoilAvailable : Int
  tcgplayerId : Int
  cardmarketId : Int
  mtgoId : Int
  mtgoFoilId : Int
deriving DecidableEq, Repr

end SpaceDog

namespace SpaceDog

/-- `fn upsert_scryfall_oracle_if_changed` (lib.rs:1997): normalise the
card's fields, upsert set / card / printing shells (`DO NOTHING` for
card and printing), read the 27-field current signature from the join,
and rewrite the card and printing rows only when the signature changed.
Returns whether the scan counts the card as updated. -/
def upsertScryfallOracleIfChanged (now : String) (s : DbState)
    (card : ScryfallCollectionCard) : DbState × Bool :=
  let scryfallId := card.id.mTrim.mToLower
  if scryfallId = "" then (s, false)
  else
    let setCode := ((card.set.getD "unknown").mTrim).mToLower
    let setName := orDefaultTrim card.setName "UNKNOWN"
    let name := orDefaultTrim card.name "Unknown Card"
    let collectorNumber := orDefaultTrim card.collectorNumber "0"
    let lang := (optTrimLowerNonempty card.lang).getD "en"
    let rarity := optTrimLowerNonempty card.rarity
    let manaCost := optTrimNonempty card.manaCost
    let typeLine := optTrimNonempty card.typeLine
    let oracleText := optTrimNonempty card.oracleText
    let colorsJson := card.colors.map jsonStringArray
    let colorIdentityJson := card.colorIdentity.map jsonStringArray
    let keywordsJson := card.keywords.map jsonStringArray
    let cmc := card.cmc.bind (fun v =>
      if v.isFinite ∧ v.val ≥ 0 then some v.val else none)
    let releasedAt := optTrimNonempty card.releasedAt
    let layout := optTrimNonempty card.layout
    let artist := optTrimNonempty card.artist
    let isDigital := card.digital.getD false
    let finishes := card.finishes.getD []
    let isFoilAvailable := finishes.any (fun v => v.mToLower = "foil")
    let isNonfoilAvailable := finishes.any (fun v => v.mToLower = "nonfoil")
    let faceUris := (card.cardFaces.bind List.head?).bind (fun f => f.imageUris)
    let normalImage := (card.imageUris.bind (fun u => u.normal)) <|>
      (faceUris.bind (fun u => u.normal))
    let smallImage := (card.imageUris.bind (fun u => u.small)) <|>
      (faceUris.bind (fun u => u.small))
    let artCropImage := (card.imageUris.bind (fun u => u.artCrop)) <|>
      (faceUris.bind (fun u => u.artCrop))
    let sets' := upsertBy (fun r => r.setCode == setCode)
      (fun r => { r with setName := setName, updatedAt := now })
      ⟨setCode, setName, now⟩ s.sets
    let s := { s with sets := sets' }
    let existingCardId := (findPrinting s.printings scryfallId).map (fun p => p.cardId)
    let wasExistingPrinting := existingCardId.isSome
    let cardId := existingCardId.getD ("scryfall:" ++ scryfallId)
    let freshCard : CardRow :=
      ⟨cardId, card.oracleId, name, manaCost, cmc, typeLine, oracleText,
        bool01 (card.reserved.getD false), keywordsJson, colorsJson,
        colorIdentityJson, releasedAt, now, now⟩
    let s := { s with cards := insertIfAbsent (fun c => c.id == cardId) freshCard s.cards }
    let freshPrinting : PrintingRow :=
      ⟨scryfallId, cardId, card.oracleId, setCode, collectorNumber, lang, rarity,
        layout, releasedAt, artist, normalImage, smallImage, artCropImage, none,
        0, bool01 isDigital, bool01 isFoilAvailable, bool01 isNonfoilAvailable,
        card.tcgplayerId, card.cardmarketId, card.mtgoId, card.mtgoFoilId, now, now⟩
    let printingsIns := insertIfAbsent (fun p => p.id == scryfallId)
      freshPrinting s.printings
    let s := { s with printings := printingsIns }
    match (findPrinting s.printings scryfallId).bind (fun p =>
        (findCard s.cards p.cardId).map (fun c => (p, c))) with
    | none => (s, false)
    | some (p, c) =>
      let currentSig : OracleSignature :=
        { name := c.name
          manaCost := c.manaCost.getD ""
          typeLine := c.typeLine.getD ""
          oracleText := c.oracleText.getD ""
          cmc := c.cmc.getD (-1)
          reserved := c.reserved
          keywordsJson := c.keywordsJson.getD ""
          colorsJson := c.colorsJson.getD ""
          colorIdentityJson := c.colorIdentityJson.getD ""
          latestReleasedAt := c.latestReleasedAt.getD ""
          setCode := p.setCode
          collectorNumber := p.collectorNumber
          lang := p.lang
          rarity := p.rarity.getD ""
          layout := p.layout.getD ""
          releasedAt := p.releasedAt.getD ""
          artist := p.artist.getD ""
          imageNormal := p.imageNormalUrl.getD ""
          imageSmall := p.imageSmallUrl.getD ""
          imageArtCrop := p.imageArtCropUrl.getD ""
          isDigital := p.isDigital
          isFoilAvailable := p.isFoilAvailable
          isNonfoilAvailable := p.isNonfoilAvailable
          tcgplayerId := p.tcgplayerId.getD (-1)
          cardmarketId := p.cardmarketId.getD (-1)
          mtgoId := p.mtgoId.getD (-1)
          mtgoFoilId := p.mtgoFoilId.getD (-1) }
      let nextSig : OracleSignature :=
        { name := name
          manaCost := manaCost.getD ""
          typeLine := typeLine.getD ""
          oracleText := oracleText.getD ""
          cmc := (cmc.getD (-1))
          reserved := bool01 (card.reserved.getD false)
          keywordsJson := keywordsJson.getD ""
          colorsJson := colorsJson.getD ""
          colorIdentityJson := colorIdentityJson.getD ""
          latestReleasedAt := releasedAt.getD ""
          setCode := setCode
          collectorNumber := collectorNumber
          lang := lang
          rarity := rarity.getD ""
          layout := layout.getD ""
          releasedAt := releasedAt.getD ""
          artist := artist.getD ""
          imageNormal := normalImage.getD ""
          imageSmall := smallImage.getD ""
          imageArtCrop := artCropImage.getD ""
          isDigital := bool01 isDigital
          isFoilAvailable := bool01 isFoilAvailable
          isNonfoilAvailable := bool01 isNonfoilAvailable
          tcgplayerId := card.tcgplayerId.getD (-1)
          cardmarketId := card.cardmarketId.getD (-1)
          mtgoId := card.mtgoId.getD (-1)
          mtgoFoilId := card.mtgoFoilId.getD (-1) }
      if currentSig = nextSig then
        (s, !wasExistingPrinting)
      else
        let cards' := updateFirst (fun cr => cr.id == cardId)
          (fun cr => { cr with
            oracleId := card.oracleId
            name := name
            manaCost := manaCost
            cmc := cmc
            typeLine := typeLine
            oracleText := oracleText
            reserved := nextSig.reserved
            keywordsJson := emptyToNone nextSig.keywordsJson
            colorsJson := emptyToNone nextSig.colorsJson
            colorIdentityJson := emptyToNone nextSig.colorIdentityJson
            latestReleasedAt := emptyToNone nextSig.latestReleasedAt
            updatedAt := now }) s.cards
        let s := { s with cards := cards' }
        let printings' := updateFirst (fun pr => pr.id == scryfallId)
          (fun pr => { pr with
            oracleId := card.oracleId
            setCode := setCode
            collectorNumber := collectorNumber
            lang := lang
            rarity := rarity
            layout := layout
            releasedAt := emptyToNone nextSig.releasedAt
            artist := artist
            imageNormalUrl := normalImage
            imageSmallUrl := smallImage
            imageArtCropUrl := artCropImage
            isDigital := nextSig.isDigital
            isFoilAvailable := nextSig.isFoilAvailable
            isNonfoilAvailable := nextSig.isNonfoilAvailable
            tcgplayerId := card.tcgplayerId
            cardmarketId := card.cardmarketId
            mtgoId := card.mtgoId
            mtgoFoilId := card.mtgoFoilId
            updatedAt := now }) s.printings
        ({ s with printings := printings' }, true)

end SpaceDog

namespace SpaceDog

/-! ## The multi-source sync orchestrator (`fn sync_all_sources_now`,
lib.rs:4422) -/

/-- The feed fetch outcomes driving one `sync_all_sources_now` cycle.
Each field is the result of the corresponding blocking HTTP fetch
(`fetch_tcgtracking_set_list` / `..._set_products` / `..._set_pricing` /
`..._set_skus` / `load_ck_pricelist_items` /
`fetch_scryfall_default_cards_bulk`). -/
structure SyncFetchOracle where
  setList : Except String (List TcgTrackingSetListItem)
  setProducts : Int → Except String TcgTrackingSetProductsResponse
  setPricing : Int → Except String TcgTrackingSetPricingResponse
  setSkus : Int → Except String TcgTrackingSetSkusResponse
  ckItems : Except String (List CkPricelistItem)
  scryfallBulk : Except String (List ScryfallCollectionCard)

/-- `struct FullSourceSyncResultDto` (lib.rs:422). -/
structure FullSourceSyncResultDto where
  startedAt : String
  finishedAt : String
  syncVersion : String
  scryfallScanned : Int
  scryfallUpdated : Int
  scryfallUnchanged : Int
  scryfallPriceSnapshots : Int
  tcgSetsScanned : Int
  tcgProductsMatched : Int
  tcgPriceUpserts : Int
  ckScanned : Int
  ckUpsertedBuylist : Int
  ckUpsertedSell : Int
deriving DecidableEq, Repr

/-- `fn ensure_sync_source` (lib.rs:1927). -/
def ensureSyncSource (now : String) (s : DbState) (sourceId kind baseUrl : String)
    (refreshWindowUtc : Option String) : DbState :=
  let dataSources' := upsertBy (fun r => r.id == sourceId)
    (fun r => { r with kind := kind, baseUrl := baseUrl, enabled := 1,
                       refreshWindowUtc := refreshWindowUtc, updatedAt := now })
    ⟨sourceId, kind, baseUrl, 1, refreshWindowUtc, now⟩ s.dataSources
  { s with dataSources := dataSources' }

/-- `fn write_source_sync_record` (lib.rs:1950): upsert the per-source
dataset-version audit row and the client sync-state row for that
source's dataset name. -/
def writeSourceSyncRecord (now : String) (s : DbState)
    (sourceId datasetName buildVersion : String) (recordCount : Int)
    (stateHash : Option String) : DbState :=
  let rowId := sourceId ++ ":" ++ datasetName ++ ":" ++ buildVersion
  let datasetVersions' := upsertBy (fun r => r.id == rowId)
    (fun r => { r with stateHash := stateHash, recordCount := recordCount,
                       createdAt := now })
    ⟨rowId, sourceId, datasetName, buildVersion, stateHash, recordCount, now⟩
    s.datasetVersions
  let s := { s with datasetVersions := datasetVersions' }
  let syncState' := upsertBy (fun r => r.datasetName == datasetName)
    (fun r => { r with currentVersion := some buildVersion, stateHash := stateHash,
                       syncedAt := now, updatedAt := now })
    ⟨datasetName, some buildVersion, stateHash, now, now⟩ s.syncState
  { s with syncState := syncState' }

/-- One iteration of the TCGTracking per-set loop (lib.rs:4462–4559),
accumulating `(state, sets_scanned, products_matched, price_upserts)`.
A failed document fetch for the set skips the set (`continue`). -/
def tcgProcessSet (oracle : SyncFetchOracle) (syncVersion : String)
    (capturedYmd : Int) (startedAt : String)
    (acc : DbState × Int × Int × Int) (setItem : TcgTrackingSetListItem) :
    DbState × Int × Int × Int :=
  let (s, scanned, matched, upserts) := acc
  let scanned := scanned + 1
  match oracle.setProducts setItem.id with
  | .error _ => (s, scanned, matched, upserts)
  | .ok productsPayload =>
    match oracle.setPricing setItem.id with
    | .error _ => (s, scanned, matched, upserts)
    | .ok pricingPayload =>
      match oracle.setSkus setItem.id with
      | .error _ => (s, scanned, matched, upserts)
      | .ok skusPayload =>
        let folded := (productsPayload.products.map (fun e => e.2)).foldl
          (tcgProcessProduct syncVersion capturedYmd startedAt pricingPayload skusPayload)
          (s, matched, upserts)
        (folded.1, scanned, folded.2.1, folded.2.2)

/-- Step 1 of the cycle: the whole TCGTracking pricing sync. -/
def tcgStep (oracle : SyncFetchOracle) (syncVersion : String) (capturedYmd : Int)
    (startedAt : String) (s : DbState) (sets : List TcgTrackingSetListItem) :
    DbState × Int × Int × Int :=
  sets.foldl (tcgProcessSet oracle syncVersion capturedYmd startedAt) (s, 0, 0, 0)

/-- Step 3 of the cycle: the Scryfall bulk metadata refresh, accumulating
`(state, scanned, updated, unchanged)`. -/
def scryfallStep (now : String) (s : DbState)
    (cards : List ScryfallCollectionCard) : DbState × Int × Int × Int :=
  cards.foldl (fun acc card =>
    let (s, scanned, updated, unchanged) := acc
    let r := upsertScryfallOracleIfChanged now s card
    if r.2 then (r.1, scanned + 1, updated + 1, unchanged)
    else (r.1, scanned + 1, updated, unchanged + 1)) (s, 0, 0, 0)

/-- `fn sync_all_sources_now` (lib.rs:4422).  The three sync-source rows
are ensured, then: the TCGTracking step (aborting the whole command if
the set list fetch fails, skipping individual sets whose document
fetches fail), the Card Kingdom step (aborting if its fetch fails), the
Scryfall bulk step (aborting if its fetch fails), and finally the
per-source version records and the catalog pointer.  There is no
enclosing transaction: an abort keeps all state already written. -/
def syncAllSourcesNow (now : String) (oracle : SyncFetchOracle) (s : DbState) :
    DbState × Except String FullSourceSyncResultDto :=
  let startedAt := now
  let syncVersion := syncVersionFromIso startedAt
  let capturedYmd := (capturedYmdFromIso startedAt).getD (currentCapturedYmd now)
  let s := ensureSyncSource now s SCRYFALL_SOURCE_ID "snapshot"
    "https://api.scryfall.com/cards/collection" (some "22:00Z")
  let s := ensureSyncSource now s TCGTRACKING_SOURCE_ID "snapshot"
    "https://tcgtracking.com/tcgapi/v1/1" none
  let s := ensureSyncSource now s CK_SOURCE_ID "snapshot" CK_PRICELIST_URL none
  match oracle.setList with
  | .error e => (s, .error e)
  | .ok setList =>
    let tcg := tcgStep oracle syncVersion capturedYmd startedAt s setList
    let s := tcg.1
    let tcgSetsScanned := tcg.2.1
    let tcgProductsMatched := tcg.2.2.1
    let tcgPriceUpserts := tcg.2.2.2
    match syncCkPricesIntoCardData now oracle.ckItems s with
    | (s, .error e) => (s, .error e)
    | (s, .ok ckResult) =>
      match oracle.scryfallBulk with
      | .error e => (s, .error e)
      | .ok cards =>
        let scry := scryfallStep now s cards
        let s := scry.1
        let scryfallScanned := scry.2.1
        let scryfallUpdated := scry.2.2.1
        let scryfallUnchanged := scry.2.2.2
        let s := writeSourceSyncRecord now s SCRYFALL_SOURCE_ID
          "default_cards_live" syncVersion scryfallScanned none
        let s := writeSourceSyncRecord now s TCGTRACKING_SOURCE_ID
          "tcgtracking_tcgplayer_live" syncVersion tcgProductsMatched none
        let s := writeSourceSyncRecord now s CK_SOURCE_ID
          "ck_pricelist_live" syncVersion ckResult.scanned none
        let s := writeCatalogSyncState now s CATALOG_DATASET_DEFAULT
          (some syncVersion) none
        let finishedAt := now
        let dto : FullSourceSyncResultDto :=
          { startedAt := startedAt
            finishedAt := finishedAt
            syncVersion := syncVersion
            scryfallScanned := scryfallScanned
            scryfallUpdated := scryfallUpdated
            scryfallUnchanged := scryfallUnchanged
            scryfallPriceSnapshots := 0
            tcgSetsScanned := tcgSetsScanned
            tcgProductsMatched := tcgProductsMatched
            tcgPriceUpserts := tcgPriceUpserts
            ckScanned := ckResult.scanned
            ckUpsertedBuylist := ckResult.upsertedBuylist
            ckUpsertedSell := ckResult.upsertedSell }
        (s, .ok dto)

end SpaceDog

namespace SpaceDog

/-! # Claim theorems -/

/-! ## C1: version-chain guard of `apply_catalog_patch` -/

/-- C1: For every patch apply call (on a well-formed request: supported
dataset, non-blank from/to versions), if the stored current version of
the dataset is not exactly the trimmed `fromVersion`, `applyPatch` fails
with the version-chain-mismatch error and leaves all persisted state —
price rows, sync state, version history, audit log — unchanged (the
whole returned state equals the input state). -/
theorem applyCatalogPatch_version_chain_guard
    (now : String) (s : DbState) (input : CatalogPatchApplyInput)
    (ds v : String)
    (hds : normalizeCatalogDataset input.dataset = .ok ds)
    (hfrom : input.fromVersion.mTrim ≠ "")
    (hto : input.toVersion.mTrim ≠ "")
    (hrow : (readCatalogSyncRow s ds).1 = some v)
    (hne : v ≠ input.fromVersion.mTrim) :
    applyCatalogPatchRun now s input =
      (s, .error s!"Catalog version mismatch. Local is {v}, patch expects {input.fromVersion.mTrim}.") := by
  unfold applyCatalogPatchRun applyCatalogPatch
  rw [hds]
  simp only [bind, Except.bind, pure, Except.pure]
  rw [if_neg (by simp [hfrom, hto])]
  rw [hrow]
  simp only [Option.getD_some]
  rw [if_pos hne]

/-- A sync-state row pointing the default dataset at version `v1`. -/
def exSyncRowV1 : SyncStateRow :=
  ⟨"default_cards", some "v1", none, "t0", "t0"⟩

/-- A database whose catalog pointer is at `v1` and all tables empty. -/
def exStateV1 : DbState := { DbState.empty with syncState := [exSyncRowV1] }

/-- A patch request whose `fromVersion` does not match the pointer. -/
def exPatchBadFrom : CatalogPatchApplyInput :=
  { dataset := none, fromVersion := "v9", toVersion := "v2", added := [],
    updated := [], removed := [], patchHash := none, strategy := none }

/-- Witness for C1 at a concrete state and request. -/
theorem applyCatalogPatch_version_chain_guard_witness :
    applyCatalogPatchRun "t1" exStateV1 exPatchBadFrom =
      (exStateV1, .error "Catalog version mismatch. Local is v1, patch expects v9.") :=
  applyCatalogPatch_version_chain_guard "t1" exStateV1 exPatchBadFrom
    "default_cards" "v1" rfl (by decide) (by decide) rfl (by decide)

end SpaceDog

namespace SpaceDog

/-! ## Record validity -/

/-- The pre-flight validity of one catalog record: non-empty normalised
id and a finite, non-negative market price — exactly the two guards of
`fn upsert_catalog_record`. -/
def recordValid (r : CatalogPriceRecordDto) : Prop :=
  recordNormId r ≠ "" ∧ r.marketPrice.isFinite ∧ r.marketPrice.val ≥ 0

instance (r : CatalogPriceRecordDto) : Decidable (recordValid r) := by
  unfold recordValid; infer_instance

/-- A valid record's upsert succeeds and produces the four-statement
state update. -/
theorem upsertCatalogRecord_eq_ok (now : String) (s : DbState)
    (row : CatalogPriceRecordDto) (syncVersion : String) (h : recordValid row) :
    upsertCatalogRecord now s row syncVersion =
      .ok (applyCatalogRecordOk now row syncVersion s) := by
  unfold upsertCatalogRecord
  rw [if_neg h.1, if_neg (by simp [h.2.1, h.2.2])]

/-- An invalid record's upsert fails. -/
theorem upsertCatalogRecord_ok_inv (now : String) (s s' : DbState)
    (row : CatalogPriceRecordDto) (syncVersion : String)
    (h : upsertCatalogRecord now s row syncVersion = .ok s') :
    recordValid row ∧ s' = applyCatalogRecordOk now row syncVersion s := by
  unfold upsertCatalogRecord at h
  split_ifs at h with h1 h2
  exact ⟨⟨h1, h2⟩, (Except.ok.inj h).symm⟩

/-- The record loop succeeds when every record is valid. -/
theorem upsertCatalogRecords_ok (now syncVersion : String)
    (rows : List CatalogPriceRecordDto) (s : DbState)
    (h : ∀ r ∈ rows, recordValid r) :
    ∃ s', upsertCatalogRecords now syncVersion rows s = .ok s' := by
  induction rows generalizing s with
  | nil => exact ⟨s, rfl⟩
  | cons r rest ih =>
    have hr := h r (List.mem_cons_self r rest)
    obtain ⟨s', hs'⟩ := ih (applyCatalogRecordOk now r syncVersion s)
      (fun x hx => h x (List.mem_cons_of_mem r hx))
    refine ⟨s', ?_⟩
    unfold upsertCatalogRecords at hs' ⊢
    rw [List.foldlM_cons, upsertCatalogRecord_eq_ok now s r syncVersion hr]
    simpa [bind, Except.bind] using hs'

/-- A successful record loop implies every record was valid. -/
theorem upsertCatalogRecords_ok_inv (now syncVersion : String)
    (rows : List CatalogPriceRecordDto) (s s' : DbState)
    (h : upsertCatalogRecords now syncVersion rows s = .ok s') :
    ∀ r ∈ rows, recordValid r := by
  induction rows generalizing s with
  | nil => intro r hr; cases hr
  | cons r rest ih =>
    intro x hx
    unfold upsertCatalogRecords at h
    rw [List.foldlM_cons] at h
    cases hstep : upsertCatalogRecord now s r syncVersion with
    | error e =>
      rw [hstep] at h
      simp [bind, Except.bind] at h
    | ok s1 =>
      rw [hstep] at h
      simp only [bind, Except.bind] at h
      rcases List.mem_cons.mp hx with rfl | hx'
      · exact (upsertCatalogRecord_ok_inv now s s1 x syncVersion hstep).1
      · exact ih s1 h x hx'

end SpaceDog

namespace SpaceDog

/-! ## C10: fresh database substitutes "none" in the chain check -/

/-- C10: When no sync-state row exists for the dataset, `applyPatch`
substitutes the literal string `"none"` for the current version before
the chain check: a patch whose trimmed `fromVersion` is exactly `"none"`
passes the guard and is applied (succeeding whenever its records pass
validation), while every other (non-blank) `fromVersion` is rejected
with the version-chain-mismatch error and no state change. -/
theorem applyCatalogPatch_fresh_database_none
    (now : String) (s : DbState) (input : CatalogPatchApplyInput) (ds : String)
    (hds : normalizeCatalogDataset input.dataset = .ok ds)
    (hto : input.toVersion.mTrim ≠ "")
    (hnone : (readCatalogSyncRow s ds).1 = none) :
    (input.fromVersion.mTrim = "none" →
      (∀ r ∈ input.added, recordValid r) → (∀ r ∈ input.updated, recordValid r) →
      ∃ s' d, applyCatalogPatchRun now s input = (s', .ok d)) ∧
    (input.fromVersion.mTrim ≠ "none" → input.fromVersion.mTrim ≠ "" →
      applyCatalogPatchRun now s input =
        (s, .error s!"Catalog version mismatch. Local is none, patch expects {input.fromVersion.mTrim}.")) := by
  constructor
  · intro hfrom hvA hvU
    unfold applyCatalogPatchRun applyCatalogPatch
    rw [hds]
    simp only [bind, Except.bind, pure, Except.pure]
    rw [if_neg (by simp [hfrom, hto])]
    rw [hnone]
    simp only [Option.getD_none]
    rw [if_neg (by simp [hfrom])]
    obtain ⟨sA, hA⟩ := upsertCatalogRecords_ok now input.toVersion.mTrim input.added _ hvA
    rw [hA]
    dsimp only
    obtain ⟨sU, hU⟩ := upsertCatalogRecords_ok now input.toVersion.mTrim input.updated sA hvU
    rw [hU]
    exact ⟨_, _, rfl⟩
  · intro hfrom hfrom'
    unfold applyCatalogPatchRun applyCatalogPatch
    rw [hds]
    simp only [bind, Except.bind, pure, Except.pure]
    rw [if_neg (by simp [hfrom', hto])]
    rw [hnone]
    simp only [Option.getD_none]
    rw [if_pos (by simpa using fun hh => hfrom hh.symm)]
    rfl

/-- A valid concrete catalog record for the printing `abc`. -/
def exRecAbc : CatalogPriceRecordDto :=
  { scryfallId := "abc", name := "Card A", setCode := "neo", collectorNumber := "1",
    imageUrl := none, marketPrice := fin64 1, lowPrice := none, midPrice := none,
    highPrice := none, updatedAt := "2024-01-01T00:00:00Z" }

/-- A patch against the literal `"none"` base version. -/
def exPatchFromNone : CatalogPatchApplyInput :=
  { dataset := none, fromVersion := "none", toVersion := "v1", added := [exRecAbc],
    updated := [], removed := [], patchHash := none, strategy := none }

/-- Witness for C10 on the empty database: the `"none"` patch applies,
and a `"v9"` patch is rejected. -/
theorem applyCatalogPatch_fresh_database_none_witness :
    (∃ s' d, applyCatalogPatchRun "t1" DbState.empty exPatchFromNone = (s', .ok d)) ∧
    applyCatalogPatchRun "t1" DbState.empty exPatchBadFrom =
      (DbState.empty, .error "Catalog version mismatch. Local is none, patch expects v9.") :=
  ⟨(applyCatalogPatch_fresh_database_none "t1" DbState.empty exPatchFromNone
      "default_cards" rfl (by decide) rfl).1 (by decide) (by decide) (by decide),
   (applyCatalogPatch_fresh_database_none "t1" DbState.empty exPatchBadFrom
      "default_cards" rfl (by decide) rfl).2 (by decide) (by decide)⟩

end SpaceDog

namespace SpaceDog

/-! ## C9: filtering and the no-op law of the merge engine -/

/-- C9 counterexample: the claim says any negative channel value is
treated as absent and an all-absent observation never creates a row.
`ck_buylist_quantity_cap` is one of the six channels, yet `clean_price`
filters only the five price channels: an observation whose five prices
are absent and whose quantity cap is `-5` (negative, so absent under the
claim) still creates a row. -/
theorem upsertCompactPriceRow_negative_cap_creates_row :
    (upsertCompactPriceRow DbState.empty "p" none none none none none none none
      (some (-5)) "v1" 20240101 "t0").prices.length = 1 := by decide

/-- `cleanPrice` is idempotent across the `F64` re-embedding. -/
theorem cleanPrice_clean (x : Option F64) :
    cleanPrice ((cleanPrice x).map fin64) = cleanPrice x := by
  cases x with
  | none => rfl
  | some v =>
    by_cases h : v.isFinite ∧ v.val ≥ 0
    · simp [cleanPrice, h, fin64, h.2]
    · simp [cleanPrice, h]

/-- C9 (amended): any non-finite or negative value among the five price
channels is treated as absent before merging (replacing each price input
by its cleaned value does not change the result), and when all five
price channels clean to absent and the quantity cap is absent the call
is a silent no-op.  (The quantity-cap channel itself is not filtered —
see the counterexample.) -/
theorem upsertCompactPriceRow_filter_and_noop :
    (∀ (s : DbState) (pid : String) (cid fid : Option Int)
      (low market high sell buylist : Option F64) (v : String) (ymd : Int)
      (at_ : String),
      cleanPrice low = none → cleanPrice market = none → cleanPrice high = none →
      cleanPrice sell = none → cleanPrice buylist = none →
      upsertCompactPriceRow s pid cid fid low market high sell buylist none v ymd at_ = s) ∧
    (∀ (s : DbState) (pid : String) (cid fid : Option Int)
      (low market high sell buylist : Option F64) (cap : Option Int) (v : String)
      (ymd : Int) (at_ : String),
      upsertCompactPriceRow s pid cid fid low market high sell buylist cap v ymd at_ =
        upsertCompactPriceRow s pid cid fid ((cleanPrice low).map fin64)
          ((cleanPrice market).map fin64) ((cleanPrice high).map fin64)
          ((cleanPrice sell).map fin64) ((cleanPrice buylist).map fin64)
          cap v ymd at_) := by
  constructor
  · intro s pid cid fid low market high sell buylist v ymd at_ h1 h2 h3 h4 h5
    unfold upsertCompactPriceRow upsertCompactPrices
    rw [h1, h2, h3, h4, h5]
    simp
  · intro s pid cid fid low market high sell buylist cap v ymd at_
    unfold upsertCompactPriceRow upsertCompactPrices
    simp only [cleanPrice_clean]

/-- Witness for the amended C9: a NaN low price and a negative market
price clean to absent, and the observation with no cap is a no-op. -/
theorem upsertCompactPriceRow_filter_and_noop_witness :
    upsertCompactPriceRow exStateV1 "p" none none (some ⟨false, 0⟩)
      (some (fin64 (-1))) none none none none "v1" 20240101 "t0" = exStateV1 :=
  upsertCompactPriceRow_filter_and_noop.1 exStateV1 "p" none none
    (some ⟨false, 0⟩) (some (fin64 (-1))) none none none "v1" 20240101 "t0"
    (by decide) (by decide) (by decide) (by decide) (by decide)

end SpaceDog

namespace SpaceDog

/-! ## C2: snapshot hash-mismatch guard -/

/-- C2: For every snapshot apply call whose `snapshotHash` is supplied,
non-blank, and differs from the hash computed over the state holding the
newly written rows, the command fails with the hash-mismatch error and
the whole transaction rolls back: the persisted state is exactly the
input state, with no partial application. -/
theorem applyCatalogSnapshot_hash_mismatch_guard
    (now : String) (s : DbState) (input : CatalogSnapshotApplyInput)
    (ds h : String) (s2 : DbState)
    (hds : normalizeCatalogDataset input.dataset = .ok ds)
    (hver : input.version.mTrim ≠ "")
    (hfold : upsertCatalogRecords now input.version.mTrim input.records
      (deletePricesForVersion s input.version.mTrim) = .ok s2)
    (hhash : input.snapshotHash = some h)
    (hne : h.mTrim ≠ "")
    (hmm : h ≠ computeCatalogStateHash
      (writeCatalogSyncState now s2 ds (some input.version.mTrim) none) ds) :
    applyCatalogSnapshotRun now s input =
      (s, .error s!"Snapshot hash mismatch. expected {h}, computed {computeCatalogStateHash (writeCatalogSyncState now s2 ds (some input.version.mTrim) none) ds}") := by
  unfold applyCatalogSnapshotRun applyCatalogSnapshot
  rw [hds]
  simp only [bind, Except.bind, pure, Except.pure]
  rw [if_neg (by simpa using hver)]
  rw [hfold]
  dsimp only
  rw [hhash]
  dsimp only
  rw [if_pos ⟨hne, hmm⟩]

/-- A snapshot request with no records and a wrong expected hash. -/
def exSnapWrongHash : CatalogSnapshotApplyInput :=
  { dataset := none, version := "v1", records := [], snapshotHash := some "wrong",
    strategy := none }

/-- Witness for C2: on the empty database the computed hash is the
digest of the dataset-name-and-newline stream, so `"wrong"` mismatches
and the call fails with the state unchanged. -/
theorem applyCatalogSnapshot_hash_mismatch_guard_witness :
    applyCatalogSnapshotRun "t1" DbState.empty exSnapWrongHash =
      (DbState.empty,
        .error "Snapshot hash mismatch. expected wrong, computed default_cards\n") :=
  applyCatalogSnapshot_hash_mismatch_guard "t1" DbState.empty exSnapWrongHash
    "default_cards" "wrong" DbState.empty rfl (by decide) rfl rfl (by decide) (by decide)

end SpaceDog

namespace SpaceDog

/-! ## C8: trend derivation -/

/-- The `0.009` trend threshold of the source as a rational. -/
theorem mkRat_nine_thousandth : (mkRat 9 1000 : ℚ) = 9 / 1000 := by
  rw [Rat.mkRat_eq_div]; norm_num

/-- C8: The trend reads the two most recent channel observations —
`trendObservations` is the query: rows of the printing whose selected
column is non-null, over all sync versions, sorted by `captured_at`
descending, truncated to two.  With fewer than two observations the
direction is `"none"` and the previous price is null; with observations
`c` (newest) and `p`, current/previous/delta are `c`/`p`/`c - p`, the
direction is `"up"` above `0.009`, `"down"` below `-0.009`, else
`"flat"`, and the last-observed timestamp is `c`'s. -/
theorem buildPriceTrendByColumn_spec (s : DbState) (scryfallId : String)
    (column : PriceColumn) :
    ((trendObservations s scryfallId column).length < 2 →
      (buildPriceTrendByColumn s scryfallId column).priceDirection = "none" ∧
      (buildPriceTrendByColumn s scryfallId column).previousPrice = none) ∧
    (∀ (c p : ℚ × String) (rest : List (ℚ × String)),
      trendObservations s scryfallId column = c :: p :: rest →
      (buildPriceTrendByColumn s scryfallId column).currentPrice = some c.1 ∧
      (buildPriceTrendByColumn s scryfallId column).previousPrice = some p.1 ∧
      (buildPriceTrendByColumn s scryfallId column).priceDelta = some (c.1 - p.1) ∧
      (buildPriceTrendByColumn s scryfallId column).priceDirection =
        (if c.1 - p.1 > 9 / 1000 then "up"
         else if c.1 - p.1 < -(9 / 1000) then "down" else "flat") ∧
      (buildPriceTrendByColumn s scryfallId column).lastPriceAt = some c.2) := by
  constructor
  · intro hlen
    have h1 : (trendObservations s scryfallId column).get? 1 = none :=
      List.get?_eq_none.mpr (by omega)
    unfold buildPriceTrendByColumn
    dsimp only
    rw [h1]
    cases h0 : (trendObservations s scryfallId column).get? 0 <;> simp [h0]
  · intro c p rest hobs
    unfold buildPriceTrendByColumn
    dsimp only
    rw [hobs]
    simp only [List.get?_cons_zero, List.get?_cons_succ, Option.map_some']
    refine ⟨trivial, trivial, ?_, ?_, trivial⟩
    · rw [ratSub_eq]
    · rw [ratSub_eq, mkRat_nine_thousandth]

/-- One price observation for printing `abc`. -/
def exTrendRow1 : PriceRow :=
  ⟨"abc", some 1, some 1, none, some (mkRat 2 1), none, none, none, none,
    "v1", 20240101, "2024-01-01T00:00:00Z", "x"⟩

/-- A later price observation for printing `abc`. -/
def exTrendRow2 : PriceRow :=
  ⟨"abc", some 1, some 1, none, some (mkRat 5 2), none, none, none, none,
    "v2", 20240102, "2024-01-02T00:00:00Z", "x"⟩

/-- A database with exactly one observation for `abc`. -/
def exTrendOne : DbState := { DbState.empty with prices := [exTrendRow1] }

/-- A database with two observations for `abc` (2.00 then 2.50). -/
def exTrendTwo : DbState := { DbState.empty with prices := [exTrendRow1, exTrendRow2] }

/-- Witness for C8: one observation gives `"none"`/null previous; the
2.00 → 2.50 history gives current 2.50, previous 2.00, direction `"up"`. -/
theorem buildPriceTrendByColumn_spec_witness :
    (buildPriceTrendByColumn exTrendOne "abc" .tcgMarket).priceDirection = "none" ∧
    (buildPriceTrendByColumn exTrendOne "abc" .tcgMarket).previousPrice = none ∧
    (buildPriceTrendByColumn exTrendTwo "abc" .tcgMarket).currentPrice = some (mkRat 5 2) ∧
    (buildPriceTrendByColumn exTrendTwo "abc" .tcgMarket).previousPrice = some (mkRat 2 1) ∧
    (buildPriceTrendByColumn exTrendTwo "abc" .tcgMarket).priceDirection = "up" := by
  have h1 := (buildPriceTrendByColumn_spec exTrendOne "abc" .tcgMarket).1 (by decide)
  have h2 := (buildPriceTrendByColumn_spec exTrendTwo "abc" .tcgMarket).2
    (mkRat 5 2, "2024-01-02T00:00:00Z") (mkRat 2 1, "2024-01-01T00:00:00Z") []
    (by decide)
  exact ⟨h1.1, h1.2, h2.1, h2.2.1, by decide⟩

end SpaceDog

namespace SpaceDog

/-! ## Shared list lemmas about keyed upserts -/

/-- `updateFirst` rewrites the first match, and finding stays at the
rewritten row as long as the update preserves the key. -/
theorem updateFirst_find? (p : α → Bool) (f : α → α) (l : List α) (r : α)
    (h : l.find? p = some r) (hf : p (f r) = true) :
    (updateFirst p f l).find? p = some (f r) := by
  induction l with
  | nil => simp at h
  | cons x xs ih =>
    by_cases hx : p x
    · rw [List.find?_cons_of_pos _ hx] at h
      injection h with h
      subst h
      simp only [updateFirst, if_pos hx]
      exact List.find?_cons_of_pos _ hf
    · rw [List.find?_cons_of_neg _ hx] at h
      simp only [updateFirst, if_neg hx]
      rw [List.find?_cons_of_neg _ hx]
      exact ih h

/-- Rows not matching the predicate are untouched by `updateFirst`. -/
theorem mem_updateFirst_of_neg (p : α → Bool) (f : α → α) (l : List α) (x : α)
    (hx : x ∈ l) (hpx : p x = false) : x ∈ updateFirst p f l := by
  induction l with
  | nil => cases hx
  | cons y ys ih =>
    by_cases hy : p y
    · simp only [updateFirst, if_pos hy]
      rcases List.mem_cons.mp hx with rfl | h
      · rw [hpx] at hy; cases hy
      · exact List.mem_cons_of_mem _ h
    · simp only [updateFirst, if_neg hy]
      rcases List.mem_cons.mp hx with rfl | h
      · exact List.mem_cons_self _ _
      · exact List.mem_cons_of_mem _ (ih h)

/-! ## C3: independent per-channel coalescing merge -/

/-- One observation that sets a single price channel. -/
def upsertSingleChannel (s : DbState) (printingId : String)
    (conditionId finishId : Option Int) (ch : PriceColumn) (v : F64)
    (syncVersion : String) (capturedYmd : Int) (capturedAt : String) : DbState :=
  match ch with
  | .tcgLow => upsertCompactPriceRow s printingId conditionId finishId
      (some v) none none none none none syncVersion capturedYmd capturedAt
  | .tcgMarket => upsertCompactPriceRow s printingId conditionId finishId
      none (some v) none none none none syncVersion capturedYmd capturedAt
  | .tcgHigh => upsertCompactPriceRow s printingId conditionId finishId
      none none (some v) none none none syncVersion capturedYmd capturedAt
  | .ckSell => upsertCompactPriceRow s printingId conditionId finishId
      none none none (some v) none none syncVersion capturedYmd capturedAt
  | .ckBuylist => upsertCompactPriceRow s printingId conditionId finishId
      none none none none (some v) none syncVersion capturedYmd capturedAt

/-- The merge keeps the conflict key fields. -/
theorem mergePriceRow_keyMatches (tl tm th cs cb : Option ℚ) (cap : Option Int)
    (ymd : Int) (at_ : String) (r : PriceRow) (pid : String)
    (cid fid : Option Int) (v : String) :
    (mergePriceRow tl tm th cs cb cap ymd at_ r).keyMatches pid cid fid v =
      r.keyMatches pid cid fid v := rfl

/-- Merge-law helper: on a key conflict, each of the six channels is
updated independently by "new value if present, else keep existing"
while `captured_ymd`/`captured_at` always take the latest call's values
— the stored row becomes exactly `mergePriceRow` of the existing row. -/
theorem upsertCompactPriceRow_merge_law
    (s : DbState) (pid : String) (cid fid : Option Int)
    (low market high sell buylist : Option F64) (cap : Option Int)
    (v : String) (ymd : Int) (at_ : String) (r : PriceRow)
    (hfound : s.prices.find? (fun row => row.keyMatches pid cid fid v) = some r)
    (hsome : ¬(cleanPrice low = none ∧ cleanPrice market = none ∧
      cleanPrice high = none ∧ cleanPrice sell = none ∧
      cleanPrice buylist = none ∧ cap = none)) :
    (upsertCompactPriceRow s pid cid fid low market high sell buylist cap
        v ymd at_).prices.find? (fun row => row.keyMatches pid cid fid v) =
      some (mergePriceRow (cleanPrice low) (cleanPrice market) (cleanPrice high)
        (cleanPrice sell) (cleanPrice buylist) cap ymd at_ r) := by
  have hpr : r.keyMatches pid cid fid v = true := by
    have h := List.find?_some hfound
    simpa using h
  have hany : s.prices.any (fun row => row.keyMatches pid cid fid v) = true :=
    List.any_eq_true.mpr ⟨r, List.mem_of_find?_eq_some hfound, by simpa using hpr⟩
  unfold upsertCompactPriceRow upsertCompactPrices
  dsimp only
  rw [if_neg hsome]
  unfold upsertBy
  rw [if_pos hany]
  refine updateFirst_find? _ _ _ r hfound ?_
  rw [mergePriceRow_keyMatches]
  exact hpr

/-- `clean_price` passes a missing value through as missing. -/
theorem cleanPrice_none : cleanPrice none = none := rfl

/-- `clean_price` keeps a finite, non-negative value. -/
theorem cleanPrice_some (v : F64) (h1 : v.isFinite = true) (h2 : v.val ≥ 0) :
    cleanPrice (some v) = some v.val := by
  simp [cleanPrice, h1, h2]

/-- When no row matches the conflict key and at least one channel
survives filtering, the upsert appends a fresh row. -/
theorem upsertCompactPrices_insert (prices : List PriceRow) (pid : String)
    (cid fid : Option Int) (low market high sell buylist : Option F64)
    (cap : Option Int) (v : String) (ymd : Int) (at_ : String)
    (hno : ∀ r ∈ prices, r.keyMatches pid cid fid v = false)
    (hsome : ¬(cleanPrice low = none ∧ cleanPrice market = none ∧
      cleanPrice high = none ∧ cleanPrice sell = none ∧
      cleanPrice buylist = none ∧ cap = none)) :
    upsertCompactPrices pid cid fid low market high sell buylist cap v ymd at_ prices =
      prices ++ [⟨pid, cid, fid, cleanPrice low, cleanPrice market, cleanPrice high,
        cleanPrice sell, cleanPrice buylist, cap, v, ymd, at_, at_⟩] := by
  unfold upsertCompactPrices
  dsimp only
  rw [if_neg hsome]
  unfold upsertBy
  rw [if_neg (by
    intro hany
    obtain ⟨r, hr, hk⟩ := List.any_eq_true.mp hany
    rw [hno r hr] at hk
    cases hk)]

/-- `find?` on a list extended by one matching row, when nothing earlier
matches, returns the appended row. -/
theorem find?_append_fresh (prices : List PriceRow) (x : PriceRow)
    (p : PriceRow → Bool)
    (hno : ∀ r ∈ prices, p r = false) (hx : p x = true) :
    (prices ++ [x]).find? p = some x := by
  rw [List.find?_append]
  have h1 : prices.find? p = none :=
    List.find?_eq_none.mpr (fun r hr => by simp [hno r hr])
  rw [h1]
  simp [List.find?, hx]

/-- Two consecutive observations on the same previously unseen key:
the first inserts a fresh row, the second merges into it, so the final
row coalesces every channel and carries the second call's metadata. -/
theorem upsertCompact_insert_then_merge (s : DbState) (pid : String)
    (cid fid : Option Int)
    (low1 market1 high1 sell1 buylist1 : Option F64) (cap1 : Option Int)
    (low2 market2 high2 sell2 buylist2 : Option F64) (cap2 : Option Int)
    (v : String) (ymd1 ymd2 : Int) (at1 at2 : String)
    (hno : ∀ r ∈ s.prices, r.keyMatches pid cid fid v = false)
    (hsome1 : ¬(cleanPrice low1 = none ∧ cleanPrice market1 = none ∧
      cleanPrice high1 = none ∧ cleanPrice sell1 = none ∧
      cleanPrice buylist1 = none ∧ cap1 = none))
    (hsome2 : ¬(cleanPrice low2 = none ∧ cleanPrice market2 = none ∧
      cleanPrice high2 = none ∧ cleanPrice sell2 = none ∧
      cleanPrice buylist2 = none ∧ cap2 = none)) :
    (upsertCompactPriceRow
        (upsertCompactPriceRow s pid cid fid low1 market1 high1 sell1 buylist1
          cap1 v ymd1 at1)
        pid cid fid low2 market2 high2 sell2 buylist2 cap2 v ymd2 at2).prices.find?
      (fun r => r.keyMatches pid cid fid v) =
    some ⟨pid, cid, fid,
      cleanPrice low2 <|> cleanPrice low1,
      cleanPrice market2 <|> cleanPrice market1,
      cleanPrice high2 <|> cleanPrice high1,
      cleanPrice sell2 <|> cleanPrice sell1,
      cleanPrice buylist2 <|> cleanPrice buylist1,
      cap2 <|> cap1, v, ymd2, at2, at2⟩ := by
  have h1 : (upsertCompactPriceRow s pid cid fid low1 market1 high1 sell1
      buylist1 cap1 v ymd1 at1).prices = s.prices ++
      [⟨pid, cid, fid, cleanPrice low1, cleanPrice market1, cleanPrice high1,
        cleanPrice sell1, cleanPrice buylist1, cap1, v, ymd1, at1, at1⟩] := by
    unfold upsertCompactPriceRow
    dsimp only
    exact upsertCompactPrices_insert _ _ _ _ _ _ _ _ _ _ _ _ _ hno hsome1
  have h2 := upsertCompactPriceRow_merge_law
    (upsertCompactPriceRow s pid cid fid low1 market1 high1 sell1 buylist1
      cap1 v ymd1 at1) pid cid fid low2 market2 high2 sell2 buylist2 cap2
    v ymd2 at2 _
    (by
      rw [h1]
      exact find?_append_fresh _ _ _ hno (by simp [PriceRow.keyMatches]))
    hsome2
  rw [h2]
  rfl

/-- C3: for every two observations on the same merge key (printing id,
condition id, finish id, sync version), each channel is merged
independently by "new value if present, else keep existing" while
`captured_ymd`/`captured_at` take the latest call's values; and if
observation 1 sets only channel A and observation 2 sets only channel B
on a previously unseen key, the final row has both A and B present —
the quantification over the pair of channels covers both call orders. -/
theorem upsertCompactPriceRow_coalesce_law :
    (∀ (s : DbState) (pid : String) (cid fid : Option Int)
      (low market high sell buylist : Option F64) (cap : Option Int)
      (v : String) (ymd : Int) (at_ : String) (r : PriceRow),
      s.prices.find? (fun row => row.keyMatches pid cid fid v) = some r →
      ¬(cleanPrice low = none ∧ cleanPrice market = none ∧
        cleanPrice high = none ∧ cleanPrice sell = none ∧
        cleanPrice buylist = none ∧ cap = none) →
      (upsertCompactPriceRow s pid cid fid low market high sell buylist cap
          v ymd at_).prices.find? (fun row => row.keyMatches pid cid fid v) =
        some (mergePriceRow (cleanPrice low) (cleanPrice market)
          (cleanPrice high) (cleanPrice sell) (cleanPrice buylist) cap
          ymd at_ r)) ∧
    (∀ (s : DbState) (pid : String) (cid fid : Option Int)
      (chA chB : PriceColumn) (a b : F64) (v : String) (ymd1 ymd2 : Int)
      (at1 at2 : String),
      chA ≠ chB →
      a.isFinite = true → a.val ≥ 0 → b.isFinite = true → b.val ≥ 0 →
      (∀ r ∈ s.prices, r.keyMatches pid cid fid v = false) →
      ∃ row,
        (upsertSingleChannel
            (upsertSingleChannel s pid cid fid chA a v ymd1 at1)
            pid cid fid chB b v ymd2 at2).prices.find?
          (fun r => r.keyMatches pid cid fid v) = some row ∧
        row.column chA = some a.val ∧ row.column chB = some b.val ∧
        row.capturedYmd = ymd2 ∧ row.capturedAt = at2) := by
  constructor
  · intro s pid cid fid low market high sell buylist cap v ymd at_ r hfound hsome
    exact upsertCompactPriceRow_merge_law s pid cid fid low market high sell
      buylist cap v ymd at_ r hfound hsome
  · intro s pid cid fid chA chB a b v ymd1 ymd2 at1 at2 hAB hA1 hA2 hB1 hB2 hno
    have hca := cleanPrice_some a hA1 hA2
    have hcb := cleanPrice_some b hB1 hB2
    cases chA <;> cases chB <;> (try exact absurd rfl hAB) <;>
      dsimp only [upsertSingleChannel] <;>
      exact ⟨_, upsertCompact_insert_then_merge s pid cid fid _ _ _ _ _ _ _ _ _ _ _
          _ v ymd1 ymd2 at1 at2 hno (by simp [hca, hcb, cleanPrice_none])
          (by simp [hca, hcb, cleanPrice_none]),
        by simp [PriceRow.column, hca, hcb, cleanPrice_none],
        by simp [PriceRow.column, hca, hcb, cleanPrice_none], rfl, rfl⟩

/-- An existing row on key (p1, 1, 1, v1) with only `tcg_low` set. -/
def exC3Row : PriceRow :=
  ⟨"p1", some 1, some 1, some 1, none, none, none, none, none, "v1",
    20250101, "t0", "t0"⟩

/-- A state holding just that row. -/
def exC3State : DbState := { DbState.empty with prices := [exC3Row] }

/-- A finite price value 2.0. -/
def exC3A : F64 := ⟨true, 2⟩

/-- A finite price value 3.0. -/
def exC3B : F64 := ⟨true, 3⟩

/-- Witness for C3: merging an observation carrying only `tcg_market`
into the existing `tcg_low`-only row keeps both channels, and two
single-channel observations on a fresh key leave both channels set. -/
theorem upsertCompactPriceRow_coalesce_law_witness :
    ((upsertCompactPriceRow exC3State "p1" (some 1) (some 1)
        none (some exC3A) none none none none "v1" 20250102 "t1").prices.find?
      (fun row => row.keyMatches "p1" (some 1) (some 1) "v1") =
      some (mergePriceRow (cleanPrice none) (cleanPrice (some exC3A))
        (cleanPrice none) (cleanPrice none) (cleanPrice none) none
        20250102 "t1" exC3Row)) ∧
    (∃ row,
      (upsertSingleChannel
          (upsertSingleChannel DbState.empty "p2" none none .tcgLow exC3A
            "v1" 20250101 "t1")
          "p2" none none .ckBuylist exC3B "v1" 20250102 "t2").prices.find?
        (fun r => r.keyMatches "p2" none none "v1") = some row ∧
      row.column .tcgLow = some exC3A.val ∧
      row.column .ckBuylist = some exC3B.val ∧
      row.capturedYmd = 20250102 ∧ row.capturedAt = "t2") := by
  constructor
  · exact upsertCompactPriceRow_coalesce_law.1 exC3State "p1" (some 1)
      (some 1) none (some exC3A) none none none none "v1" 20250102 "t1"
      exC3Row rfl (by decide)
  · exact upsertCompactPriceRow_coalesce_law.2 DbState.empty "p2" none
      none .tcgLow .ckBuylist exC3A exC3B "v1" 20250101 20250102 "t1" "t2"
      (by decide) rfl (by decide) rfl (by decide)
      (fun r hr => absurd hr (List.not_mem_nil r))

/-! ## C4: failure isolation in the multi-source sync cycle -/

/-- A fetch oracle for one sync cycle: the TCGTracking set list succeeds
with one set, every per-set document fetch times out, the Card Kingdom
pricelist fetch times out, and the Scryfall bulk fetch succeeds. -/
def exC4Oracle : SyncFetchOracle :=
  { setList := .ok [⟨7⟩]
    setProducts := fun _ => .error "TCG set request timed out"
    setPricing := fun _ => .error "TCG set request timed out"
    setSkus := fun _ => .error "TCG set request timed out"
    ckItems := .error "CK request timed out"
    scryfallBulk := .ok [] }

/-- Counterexample to C4: a timeout of one feed (the Card Kingdom
pricelist fetch) makes the whole sync command fail outright with that
feed's error — no partial aggregate result is surfaced, and the Scryfall
feed, although its fetch would succeed, never runs. -/
theorem syncAllSourcesNow_feed_failure_not_isolated :
    (syncAllSourcesNow "2025-01-02T03:04:05Z" exC4Oracle DbState.empty).2 =
      .error "CK request timed out" := rfl

/-- C4 (amended): within the TCGTracking feed, a per-set document fetch
failure is isolated — the set is counted as scanned and skipped with no
state change, so other sets still run; but a failure of a whole-feed
fetch (here the Card Kingdom pricelist) aborts the entire sync command
with that error instead of a partial aggregate result, keeping the state
already committed by the earlier TCGTracking step (no rollback, since
there is no enclosing transaction). -/
theorem syncAllSourcesNow_partial_isolation :
    (∀ (oracle : SyncFetchOracle) (syncVersion : String) (capturedYmd : Int)
      (startedAt : String) (acc : DbState × Int × Int × Int)
      (setItem : TcgTrackingSetListItem) (e : String),
      oracle.setProducts setItem.id = .error e →
      tcgProcessSet oracle syncVersion capturedYmd startedAt acc setItem =
        (acc.1, acc.2.1 + 1, acc.2.2.1, acc.2.2.2)) ∧
    (∀ (now : String) (oracle : SyncFetchOracle) (s : DbState)
      (setList : List TcgTrackingSetListItem) (e : String),
      oracle.setList = .ok setList →
      oracle.ckItems = .error e →
      syncAllSourcesNow now oracle s =
        ((tcgStep oracle (syncVersionFromIso now)
            ((capturedYmdFromIso now).getD (currentCapturedYmd now)) now
            (ensureSyncSource now
              (ensureSyncSource now
                (ensureSyncSource now s SCRYFALL_SOURCE_ID "snapshot"
                  "https://api.scryfall.com/cards/collection" (some "22:00Z"))
                TCGTRACKING_SOURCE_ID "snapshot"
                "https://tcgtracking.com/tcgapi/v1/1" none)
              CK_SOURCE_ID "snapshot" CK_PRICELIST_URL none)
            setList).1,
          .error e)) := by
  constructor
  · intro oracle syncVersion capturedYmd startedAt acc setItem e he
    obtain ⟨s, scanned, matched, upserts⟩ := acc
    unfold tcgProcessSet
    rw [he]
  · intro now oracle s setList e hset hck
    unfold syncAllSourcesNow
    rw [hset]
    dsimp only
    unfold syncCkPricesIntoCardData
    rw [hck]

/-- Witness for C4 (amended): on the concrete oracle, the failed per-set
fetch skips the set leaving the state untouched, and the Card Kingdom
fetch failure aborts the cycle keeping the TCGTracking step's state. -/
theorem syncAllSourcesNow_partial_isolation_witness :
    (tcgProcessSet exC4Oracle "v" 20250102 "t" (DbState.empty, 0, 0, 0) ⟨7⟩ =
      (DbState.empty, 1, 0, 0)) ∧
    (syncAllSourcesNow "2025-01-02T03:04:05Z" exC4Oracle DbState.empty =
      ((tcgStep exC4Oracle (syncVersionFromIso "2025-01-02T03:04:05Z")
          ((capturedYmdFromIso "2025-01-02T03:04:05Z").getD
            (currentCapturedYmd "2025-01-02T03:04:05Z")) "2025-01-02T03:04:05Z"
          (ensureSyncSource "2025-01-02T03:04:05Z"
            (ensureSyncSource "2025-01-02T03:04:05Z"
              (ensureSyncSource "2025-01-02T03:04:05Z" DbState.empty
                SCRYFALL_SOURCE_ID "snapshot"
                "https://api.scryfall.com/cards/collection" (some "22:00Z"))
              TCGTRACKING_SOURCE_ID "snapshot"
              "https://tcgtracking.com/tcgapi/v1/1" none)
            CK_SOURCE_ID "snapshot" CK_PRICELIST_URL none)
          [⟨7⟩]).1,
        .error "CK request timed out")) :=
  ⟨syncAllSourcesNow_partial_isolation.1 exC4Oracle "v" 20250102 "t"
      (DbState.empty, 0, 0, 0) ⟨7⟩ "TCG set request timed out" rfl,
    syncAllSourcesNow_partial_isolation.2 "2025-01-02T03:04:05Z"
      exC4Oracle DbState.empty [⟨7⟩] "CK request timed out" rfl rfl⟩

/-! ## C6: determinism of the catalog state hash

The hash query orders lines by `p.id` alone, with no tie-breaker, so the
order of lines sharing a printing id follows the table scan.  The order
lemmas below establish that the BINARY collation `≤` is a total
preorder whose ties are exactly equal keys. -/

/-- `charsLe` is total. -/
theorem charsLe_total : ∀ (a b : List Char), charsLe a b = true ∨ charsLe b a = true
  | [], _ => .inl rfl
  | _ :: _, [] => .inr rfl
  | a :: as, b :: bs => by
    unfold charsLe
    rcases Nat.lt_trichotomy a.toNat b.toNat with h | h | h
    · left; rw [if_pos h]
    · rw [if_neg (by omega), if_neg (by omega), if_neg (by omega), if_neg (by omega)]
      exact charsLe_total as bs
    · right; rw [if_pos h]

/-- `charsLe` is transitive. -/
theorem charsLe_trans : ∀ (a b c : List Char), charsLe a b = true →
    charsLe b c = true → charsLe a c = true
  | [], _, _, _, _ => rfl
  | _ :: _, [], _, h1, _ => by exact absurd h1 (by simp [charsLe])
  | _ :: _, _ :: _, [], _, h2 => by exact absurd h2 (by simp [charsLe])
  | a :: as, b :: bs, c :: cs, h1, h2 => by
    unfold charsLe at h1 h2 ⊢
    by_cases hab : a.toNat < b.toNat <;> by_cases hbc : b.toNat < c.toNat
    · rw [if_pos (Nat.lt_trans hab hbc)]
    · rw [if_neg hbc] at h2
      by_cases hcb : c.toNat < b.toNat
      · rw [if_pos hcb] at h2; cases h2
      · rw [if_pos (by omega : a.toNat < c.toNat)]
    · rw [if_neg hab] at h1
      by_cases hba : b.toNat < a.toNat
      · rw [if_pos hba] at h1; cases h1
      · rw [if_pos (by omega : a.toNat < c.toNat)]
    · rw [if_neg hab] at h1
      rw [if_neg hbc] at h2
      by_cases hba : b.toNat < a.toNat
      · rw [if_pos hba] at h1; cases h1
      · by_cases hcb : c.toNat < b.toNat
        · rw [if_pos hcb] at h2; cases h2
        · rw [if_neg hba] at h1
          rw [if_neg hcb] at h2
          rw [if_neg (by omega), if_neg (by omega)]
          exact charsLe_trans as bs cs h1 h2

/-- `charsLe` is antisymmetric. -/
theorem charsLe_antisymm : ∀ (a b : List Char), charsLe a b = true →
    charsLe b a = true → a = b
  | [], [], _, _ => rfl
  | [], _ :: _, _, h2 => by exact absurd h2 (by simp [charsLe])
  | _ :: _, [], h1, _ => by exact absurd h1 (by simp [charsLe])
  | a :: as, b :: bs, h1, h2 => by
    unfold charsLe at h1 h2
    rcases Nat.lt_trichotomy a.toNat b.toNat with h | h | h
    · rw [if_neg (by omega), if_pos h] at h2; cases h2
    · have hab : a = b := by
        have hc := congrArg Char.ofNat h
        rwa [Char.ofNat_toNat, Char.ofNat_toNat] at hc
      subst hab
      rw [if_neg (by omega), if_neg (by omega)] at h1
      rw [if_neg (by omega), if_neg (by omega)] at h2
      rw [charsLe_antisymm as bs h1 h2]
    · rw [if_neg (by omega), if_pos h] at h1; cases h1

/-- BINARY-collation `≤` on strings is total. -/
theorem mLe_total (a b : String) : a.mLe b = true ∨ b.mLe a = true :=
  charsLe_total a.data b.data

/-- BINARY-collation `≤` on strings is transitive. -/
theorem mLe_trans (a b c : String) (h1 : a.mLe b = true) (h2 : b.mLe c = true) :
    a.mLe c = true :=
  charsLe_trans a.data b.data c.data h1 h2

/-- BINARY-collation `≤` on strings is antisymmetric. -/
theorem mLe_antisymm (a b : String) (h1 : a.mLe b = true) (h2 : b.mLe a = true) :
    a = b := by
  have hd := charsLe_antisymm a.data b.data h1 h2
  cases a
  cases b
  exact congrArg String.mk hd

/-- Two lists of keyed lines that are sorted by key, are permutations of
one another, and have pairwise-distinct keys, are equal. -/
theorem sorted_perm_nodupKeys_eq :
    ∀ (l1 l2 : List (String × String)),
      l1.Perm l2 →
      l1.Sorted (fun a b => a.1.mLe b.1 = true) →
      l2.Sorted (fun a b => a.1.mLe b.1 = true) →
      (l2.map Prod.fst).Nodup →
      l1 = l2 := by
  intro l1
  induction l1 with
  | nil =>
    intro l2 hp _ _ _
    exact hp.nil_eq
  | cons h1 t1 ih =>
    intro l2 hp hs1 hs2 hnd
    cases l2 with
    | nil =>
      have := hp.length_eq
      simp at this
    | cons h2 t2 =>
      have hh : h1 = h2 := by
        by_contra hne
        have h1mem : h1 ∈ h2 :: t2 := hp.mem_iff.mp (List.mem_cons_self _ _)
        have h2mem : h2 ∈ h1 :: t1 := hp.mem_iff.mpr (List.mem_cons_self _ _)
        have h1t2 : h1 ∈ t2 := by
          rcases List.mem_cons.mp h1mem with h | h
          · exact absurd h hne
          · exact h
        have h2t1 : h2 ∈ t1 := by
          rcases List.mem_cons.mp h2mem with h | h
          · exact absurd h.symm hne
          · exact h
        have r12 : h1.1.mLe h2.1 = true := (List.sorted_cons.mp hs1).1 h2 h2t1
        have r21 : h2.1.mLe h1.1 = true := (List.sorted_cons.mp hs2).1 h1 h1t2
        have hkey : h1.1 = h2.1 := mLe_antisymm _ _ r12 r21
        have hnotin : h2.1 ∉ t2.map Prod.fst := (List.nodup_cons.mp hnd).1
        exact hnotin (hkey ▸ List.mem_map_of_mem Prod.fst h1t2)
      subst hh
      have htp : t1.Perm t2 := (List.perm_cons h1).mp hp
      rw [ih t2 htp (List.sorted_cons.mp hs1).2 (List.sorted_cons.mp hs2).2
        (List.nodup_cons.mp hnd).2]

/-- Sorting by printing id is order-independent once the printing ids
are pairwise distinct. -/
theorem sortHashRows_perm_eq (l1 l2 : List (String × String)) (hp : l1.Perm l2)
    (hnd : (l2.map Prod.fst).Nodup) : sortHashRows l1 = sortHashRows l2 := by
  haveI hT : IsTotal (String × String) (fun a b => a.1.mLe b.1 = true) :=
    ⟨fun a b => mLe_total a.1 b.1⟩
  haveI hR : IsTrans (String × String) (fun a b => a.1.mLe b.1 = true) :=
    ⟨fun a b c => mLe_trans a.1 b.1 c.1⟩
  unfold sortHashRows
  apply sorted_perm_nodupKeys_eq
  · exact (List.perm_insertionSort _ l1).trans
      (hp.trans (List.perm_insertionSort _ l2).symm)
  · exact List.sorted_insertionSort _ l1
  · exact List.sorted_insertionSort _ l2
  · have hpm : ((l2.insertionSort (fun a b => a.1.mLe b.1 = true)).map Prod.fst).Perm
        (l2.map Prod.fst) := (List.perm_insertionSort _ l2).map _
    exact hpm.nodup_iff.mpr hnd

/-- A card row used by the hash fixtures. -/
def exC6Card : CardRow :=
  ⟨"c1", none, "Card One", none, none, none, none, 0, none, none, none, none,
    "t0", "t0"⟩

/-- A printing of that card with the given id. -/
def exC6Print (pid : String) : PrintingRow :=
  ⟨pid, "c1", none, "set", "1", "en", none, none, none, none, none, none,
    none, none, 0, 0, 0, 0, none, none, none, none, "t0", "t0"⟩

/-- A price row of version v1 with a market price. -/
def exC6PriceRow (pid : String) (fin : Int) (market : ℚ) (cap : String) : PriceRow :=
  ⟨pid, some 1, some fin, none, some market, none, none, none, none, "v1",
    20250101, cap, cap⟩

/-- A catalog at current version v1 with one card and one printing. -/
def exC6Base : DbState :=
  { DbState.empty with
    cards := [exC6Card]
    printings := [exC6Print "p1"]
    syncState := [⟨"default_cards", some "v1", none, "t0", "t0"⟩] }

/-- Nonfoil and foil market rows for the same printing, one order... -/
def exC6S1 : DbState :=
  { exC6Base with
    prices := [exC6PriceRow "p1" 1 (mkRat 1 1) "ta",
               exC6PriceRow "p1" 2 (mkRat 2 1) "tb"] }

/-- ...and the same two rows inserted in the other order. -/
def exC6S2 : DbState :=
  { exC6Base with
    prices := [exC6PriceRow "p1" 2 (mkRat 2 1) "tb",
               exC6PriceRow "p1" 1 (mkRat 1 1) "ta"] }

/-- Counterexample to C6: two catalogs with the same row content (the
price tables are permutations, all other tables equal) hash differently,
because the two hashed rows share the printing id — `ORDER BY p.id` has
no tie-breaker, so their line order follows insertion order. -/
theorem computeCatalogStateHash_tie_order_dependent :
    exC6S2.prices.Perm exC6S1.prices ∧
    exC6S2.printings = exC6S1.printings ∧
    exC6S2.cards = exC6S1.cards ∧
    exC6S2.syncState = exC6S1.syncState ∧
    computeCatalogStateHash exC6S2 "default_cards" ≠
      computeCatalogStateHash exC6S1 "default_cards" := by
  refine ⟨by decide, rfl, rfl, rfl, by decide⟩

/-- C6 (amended): when the dataset has no current version the hash
covers only the dataset name; and the hash is insertion-order
independent provided each printing id occurs in at most one hashed
line — two catalogs whose price tables are permutations of each other
(same printings, cards and sync state) then hash identically. -/
theorem computeCatalogStateHash_determinism :
    (∀ (s : DbState) (ds : String),
      (readCatalogSyncRow s ds).1 = none →
      computeCatalogStateHash s ds = sha256Hex (ds ++ "\n")) ∧
    (∀ (s1 s2 : DbState) (ds v : String),
      s2.prices.Perm s1.prices →
      s2.printings = s1.printings →
      s2.cards = s1.cards →
      s2.syncState = s1.syncState →
      (readCatalogSyncRow s1 ds).1 = some v →
      ((hashJoinRows s1 v).map Prod.fst).Nodup →
      computeCatalogStateHash s2 ds = computeCatalogStateHash s1 ds) := by
  constructor
  · intro s ds h
    unfold computeCatalogStateHash
    rw [h]
  · intro s1 s2 ds v hp hprint hcards hsync hrow hnd
    have hread : readCatalogSyncRow s2 ds = readCatalogSyncRow s1 ds := by
      unfold readCatalogSyncRow
      rw [hsync]
    have hjoin : (hashJoinRows s2 v).Perm (hashJoinRows s1 v) := by
      unfold hashJoinRows
      rw [hprint, hcards]
      exact hp.filterMap _
    unfold computeCatalogStateHash
    rw [hread, hrow]
    dsimp only
    rw [sortHashRows_perm_eq _ _ hjoin hnd]

/-- Two distinct printings, each with one market row, one order... -/
def exC6W1 : DbState :=
  { exC6Base with
    printings := [exC6Print "p1", exC6Print "p2"]
    prices := [exC6PriceRow "p1" 1 (mkRat 1 1) "ta",
               exC6PriceRow "p2" 1 (mkRat 2 1) "tb"] }

/-- ...and the same rows inserted in the other order. -/
def exC6W2 : DbState :=
  { exC6Base with
    printings := [exC6Print "p1", exC6Print "p2"]
    prices := [exC6PriceRow "p2" 1 (mkRat 2 1) "tb",
               exC6PriceRow "p1" 1 (mkRat 1 1) "ta"] }

/-- Witness for C6 (amended): a fresh database hashes only the dataset
name, and the two-printing catalogs with swapped insertion order hash
identically. -/
theorem computeCatalogStateHash_determinism_witness :
    (computeCatalogStateHash DbState.empty "default_cards" =
      sha256Hex ("default_cards" ++ "\n")) ∧
    (computeCatalogStateHash exC6W2 "default_cards" =
      computeCatalogStateHash exC6W1 "default_cards") :=
  ⟨computeCatalogStateHash_determinism.1 DbState.empty "default_cards" rfl,
    computeCatalogStateHash_determinism.2 exC6W1 exC6W2 "default_cards" "v1"
      (by decide) rfl rfl rfl rfl (by decide)⟩

/-! ## C7: carry-forward of unmentioned printings by `apply_catalog_patch` -/

/-- Inversion of a successful `Except` bind. -/
theorem except_bind_ok {a b : Type} {x : Except String a} {f : a → Except String b}
    {v : b} (h : x.bind f = .ok v) : ∃ u, x = .ok u ∧ f u = .ok v := by
  cases x with
  | error e => simp [Except.bind] at h
  | ok u => exact ⟨u, rfl, by simpa [Except.bind] using h⟩

/-- A price upsert on a different printing id keeps a row in the table. -/
theorem mem_upsertCompactPrices_of_ne (x : PriceRow) (prices : List PriceRow)
    (pid : String) (cid fid : Option Int)
    (low market high sell buylist : Option F64) (cap : Option Int)
    (v : String) (ymd : Int) (at_ : String)
    (hx : x ∈ prices) (hne : x.printingId ≠ pid) :
    x ∈ upsertCompactPrices pid cid fid low market high sell buylist cap
      v ymd at_ prices := by
  unfold upsertCompactPrices
  dsimp only
  split
  · exact hx
  · unfold upsertBy
    split
    · refine mem_updateFirst_of_neg _ _ _ _ hx ?_
      simp only [PriceRow.keyMatches, decide_eq_false_iff_not]
      exact fun h => hne h.1
    · exact List.mem_append_left _ hx

/-- The record loop keeps every price row whose printing id none of the
records mention. -/
theorem mem_upsertCatalogRecords (now v : String)
    (rows : List CatalogPriceRecordDto) (st st' : DbState) (x : PriceRow)
    (h : upsertCatalogRecords now v rows st = .ok st')
    (hx : x ∈ st.prices)
    (hne : ∀ rec ∈ rows, recordNormId rec ≠ x.printingId) :
    x ∈ st'.prices := by
  induction rows generalizing st with
  | nil =>
    unfold upsertCatalogRecords at h
    simp only [List.foldlM_nil] at h
    cases h
    exact hx
  | cons r rest ih =>
    unfold upsertCatalogRecords at h
    rw [List.foldlM_cons] at h
    cases hstep : upsertCatalogRecord now st r v with
    | error e =>
      rw [hstep] at h
      simp [bind, Except.bind] at h
    | ok s1 =>
      rw [hstep] at h
      simp only [bind, Except.bind] at h
      obtain ⟨hval, hs1⟩ := upsertCatalogRecord_ok_inv now st s1 r v hstep
      subst hs1
      refine ih _ (by unfold upsertCatalogRecords; exact h) ?_
        (fun rec hr => hne rec (List.mem_cons_of_mem r hr))
      unfold applyCatalogRecordOk recordPricesEffect
      dsimp only
      exact mem_upsertCompactPrices_of_ne x st.prices _ _ _ _ _ _ _ _ _ _ _ _
        hx (fun hh => hne r (List.mem_cons_self r rest) hh.symm)

/-- The removes loop of `apply_catalog_patch` keeps every price row whose
printing id none of the (trimmed, lowercased) removed ids equal. -/
theorem mem_removes_fold (ids : List String) (st : DbState) (x : PriceRow)
    (tov : String) (hx : x ∈ st.prices)
    (hne : ∀ id ∈ ids, id.mTrim.mToLower ≠ x.printingId) :
    x ∈ (ids.foldl (fun (st : DbState) id =>
      let trimmed := id.mTrim
      if trimmed = "" then st
      else { st with prices := st.prices.filter (fun r =>
        !(r.syncVersion == tov && r.printingId == trimmed.mToLower)) }) st).prices := by
  induction ids generalizing st with
  | nil => exact hx
  | cons id rest ih =>
    rw [List.foldl_cons]
    refine ih _ ?_ (fun i hi => hne i (List.mem_cons_of_mem id hi))
    dsimp only
    split
    · exact hx
    · refine List.mem_filter.mpr ⟨hx, ?_⟩
      have hb : (x.printingId == id.mTrim.mToLower) = false :=
        beq_eq_false_iff_ne.mpr (fun hh => hne id (List.mem_cons_self id rest) hh.symm)
      simp [hb]

/-- Writing the sync pointer does not touch the price table. -/
theorem writeCatalogSyncState_prices (now : String) (s : DbState) (ds : String)
    (cv sh : Option String) :
    (writeCatalogSyncState now s ds cv sh).prices = s.prices := by
  unfold writeCatalogSyncState
  cases cv with
  | none => rfl
  | some v =>
    dsimp only
    split
    · rfl
    · rfl

/-- Appending audit rows does not touch the price table. -/
theorem appendCatalogPatchHistory_prices (now : String) (s : DbState)
    (ds : String) (fv : Option String) (tv st : String) (ph : Option String)
    (a b c t : Int) :
    (appendCatalogPatchHistory now s ds fv tv st ph a b c t).prices = s.prices := rfl

/-- Carry-forward helper: a from-version price row untouched by the
patch reappears, retagged to the target version with fresh capture
metadata, in any successful patch result. -/
theorem applyCatalogPatch_carry (now : String) (s : DbState)
    (input : CatalogPatchApplyInput) (ds : String) (r : PriceRow)
    (s' : DbState) (dto : CatalogApplyResultDto)
    (hds : normalizeCatalogDataset input.dataset = .ok ds)
    (hfrom : input.fromVersion.mTrim ≠ "")
    (hto : input.toVersion.mTrim ≠ "")
    (hguard : ((readCatalogSyncRow s ds).1).getD "none" = input.fromVersion.mTrim)
    (hver : input.fromVersion.mTrim ≠ input.toVersion.mTrim)
    (hmem : r ∈ s.prices)
    (hrv : r.syncVersion = input.fromVersion.mTrim)
    (hrem : ∀ id ∈ input.removed, id.mTrim.mToLower ≠ r.printingId)
    (hadd : ∀ rec ∈ input.added, recordNormId rec ≠ r.printingId)
    (hupd : ∀ rec ∈ input.updated, recordNormId rec ≠ r.printingId)
    (happly : applyCatalogPatch now s input = .ok (s', dto)) :
    { r with syncVersion := input.toVersion.mTrim,
             capturedYmd := (capturedYmdFromSyncVersion input.toVersion.mTrim).getD
               (currentCapturedYmd now),
             capturedAt := now, createdAt := now } ∈ s'.prices := by
  unfold applyCatalogPatch at happly
  rw [hds] at happly
  simp only [bind, Except.bind, pure, Except.pure] at happly
  rw [if_neg (by simp [hfrom, hto])] at happly
  rw [if_neg (by simp [hguard])] at happly
  obtain ⟨sA, hA, happly⟩ := except_bind_ok happly
  obtain ⟨sB, hB, happly⟩ := except_bind_ok happly
  injection happly with hpair
  rw [Prod.mk.injEq] at hpair
  obtain ⟨h1, h2⟩ := hpair
  rw [← h1]
  rw [appendCatalogPatchHistory_prices, writeCatalogSyncState_prices,
    writeCatalogSyncState_prices]
  refine mem_upsertCatalogRecords now _ input.updated sA sB _ hB ?_ hupd
  refine mem_upsertCatalogRecords now _ input.added _ sA _ hA ?_ hadd
  refine mem_removes_fold input.removed _ _ _ ?_ hrem
  refine List.mem_append_right _ ?_
  refine List.mem_map_of_mem _ ?_
  refine List.mem_filter.mpr ⟨?_, by simp [hrv]⟩
  refine List.mem_filter.mpr ⟨hmem, ?_⟩
  simp [hrv]
  exact hver

/-- The clock of the C7 scenario. -/
def exC7Now : String := "2025-01-02T03:04:05Z"

/-- Snapshot v1 with one record `abc` at market price 1.00. -/
def exC7Snap : CatalogSnapshotApplyInput :=
  { dataset := none
    version := "v1"
    records := [⟨"abc", "Abc Card", "set", "1", none, ⟨true, mkRat 1 1⟩, none,
      none, none, "2025-01-01T00:00:00Z"⟩]
    snapshotHash := none
    strategy := none }

/-- The catalog after applying that snapshot to a fresh database. -/
def exC7S1 : DbState := (applyCatalogSnapshotRun exC7Now DbState.empty exC7Snap).1

/-- Patch v1→v2 with `updated = [abc at market price 1.50]`. -/
def exC7Patch : CatalogPatchApplyInput :=
  { dataset := none
    fromVersion := "v1"
    toVersion := "v2"
    added := []
    updated := [⟨"abc", "Abc Card", "set", "1", none, ⟨true, mkRat 3 2⟩, none,
      none, none, "2025-01-02T00:00:00Z"⟩]
    removed := []
    patchHash := none
    strategy := none }

/-- C7: a successful patch carries every from-version price row the patch
does not mention (not removed, not among added/updated record ids)
forward to the target version with the same six channels; and in the
concrete scenario — snapshot v1 `[abc, market 1.00]` then patch v1→v2
with `updated = [abc, market 1.50]` — the row for `abc` under v2 has
`tcg_market = 1.50` and the result reports `totalRecords = 1`. -/
theorem applyCatalogPatch_carry_forward :
    (∀ (now : String) (s : DbState) (input : CatalogPatchApplyInput)
      (ds : String) (r : PriceRow) (s' : DbState) (dto : CatalogApplyResultDto),
      normalizeCatalogDataset input.dataset = .ok ds →
      input.fromVersion.mTrim ≠ "" →
      input.toVersion.mTrim ≠ "" →
      ((readCatalogSyncRow s ds).1).getD "none" = input.fromVersion.mTrim →
      input.fromVersion.mTrim ≠ input.toVersion.mTrim →
      r ∈ s.prices →
      r.syncVersion = input.fromVersion.mTrim →
      (∀ id ∈ input.removed, id.mTrim.mToLower ≠ r.printingId) →
      (∀ rec ∈ input.added, recordNormId rec ≠ r.printingId) →
      (∀ rec ∈ input.updated, recordNormId rec ≠ r.printingId) →
      applyCatalogPatch now s input = .ok (s', dto) →
      { r with syncVersion := input.toVersion.mTrim,
               capturedYmd := (capturedYmdFromSyncVersion input.toVersion.mTrim).getD
                 (currentCapturedYmd now),
               capturedAt := now, createdAt := now } ∈ s'.prices) ∧
    ((((applyCatalogPatchRun exC7Now exC7S1 exC7Patch).1.prices.find?
        (fun r => r.printingId == "abc" && r.syncVersion == "v2")).map
      (fun r => r.tcgMarket) = some (some (mkRat 3 2))) ∧
    (((applyCatalogPatchRun exC7Now exC7S1 exC7Patch).2).map
      (fun d => d.totalRecords) = .ok 1)) := by
  refine ⟨?_, by decide, rfl⟩
  intro now s input ds r s' dto hds hfrom hto hguard hver hmem hrv hrem hadd hupd happly
  exact applyCatalogPatch_carry now s input ds r s' dto hds hfrom hto hguard
    hver hmem hrv hrem hadd hupd happly

/-- The price row the v1 snapshot of the scenario writes. -/
def exC7CarrySrc : PriceRow :=
  ⟨"abc", some 1, some 1, some (mkRat 1 1), some (mkRat 1 1), some (mkRat 1 1),
    none, none, none, "v1", 20250101, "2025-01-01T00:00:00Z",
    "2025-01-01T00:00:00Z"⟩

/-- A pure carry-forward patch v1→v2 that mentions nothing. -/
def exC7CarryPatch : CatalogPatchApplyInput :=
  { dataset := none
    fromVersion := "v1"
    toVersion := "v2"
    added := []
    updated := []
    removed := []
    patchHash := none
    strategy := none }

/-- The state a successful run of the carry-forward patch produces. -/
def exC7CarryResState : DbState :=
  match applyCatalogPatch exC7Now exC7S1 exC7CarryPatch with
  | .ok p => p.1
  | .error _ => DbState.empty

/-- The result DTO of that run. -/
def exC7CarryResDto : CatalogApplyResultDto :=
  match applyCatalogPatch exC7Now exC7S1 exC7CarryPatch with
  | .ok p => p.2
  | .error _ => ⟨"", none, "", "", none, "", 0, 0, 0, 0⟩

/-- Witness for C7: the untouched `abc` row of v1 reappears under v2
after the empty patch, retagged with the new version and capture time. -/
theorem applyCatalogPatch_carry_forward_witness :
    { exC7CarrySrc with
        syncVersion := exC7CarryPatch.toVersion.mTrim,
        capturedYmd := (capturedYmdFromSyncVersion exC7CarryPatch.toVersion.mTrim).getD
          (currentCapturedYmd exC7Now),
        capturedAt := exC7Now, createdAt := exC7Now } ∈ exC7CarryResState.prices :=
  applyCatalogPatch_carry_forward.1 exC7Now exC7S1 exC7CarryPatch
    "default_cards" exC7CarrySrc exC7CarryResState exC7CarryResDto rfl
    (by decide) (by decide) (by decide) (by decide) (by decide) (by decide)
    (fun id h => absurd h (List.not_mem_nil id))
    (fun rec h => absurd h (List.not_mem_nil rec))
    (fun rec h => absurd h (List.not_mem_nil rec))
    rfl

end SpaceDog

/-! ## C5: idempotence of `apply_catalog_snapshot` -/

namespace SpaceDog

theorem updateFirst_fixpoint (p : α → Bool) (f : α → α) (l : List α) (r : α)
    (h : l.find? p = some r) (hf : f r = r) : updateFirst p f l = l := by
  induction l with
  | nil => rfl
  | cons y ys ih =>
    by_cases hy : p y
    · rw [List.find?_cons_of_pos _ hy] at h
      injection h with h
      subst h
      simp only [updateFirst, if_pos hy, hf]
    · rw [List.find?_cons_of_neg _ hy] at h
      simp only [updateFirst, if_neg hy, ih h]

theorem find?_updateFirst_of (p q : α → Bool) (f : α → α) (l : List α)
    (hq : ∀ x, q (f x) = q x) (hqp : ∀ x, p x = true → q x = false) :
    (updateFirst p f l).find? q = l.find? q := by
  induction l with
  | nil => rfl
  | cons y ys ih =>
    by_cases hy : p y
    · simp only [updateFirst, if_pos hy]
      rw [List.find?_cons_of_neg _ (by simp [hq, hqp y hy]),
        List.find?_cons_of_neg _ (by simp [hqp y hy])]
    · simp only [updateFirst, if_neg hy]
      by_cases hqy : q y
      · rw [List.find?_cons_of_pos _ hqy, List.find?_cons_of_pos _ hqy]
      · rw [List.find?_cons_of_neg _ hqy, List.find?_cons_of_neg _ hqy, ih]

theorem find?_append_of_neg (l : List α) (x : α) (q : α → Bool)
    (hx : q x = false) : (l ++ [x]).find? q = l.find? q := by
  induction l with
  | nil => simp [List.find?, hx]
  | cons y ys ih =>
    by_cases hy : q y
    · simp only [List.cons_append, List.find?_cons_of_pos _ hy]
    · simp only [List.cons_append, List.find?_cons_of_neg _ hy, ih]

theorem filter_updateFirst_out (p : α → Bool) (f : α → α)
    (fil : α → Bool) (l : List α)
    (h : ∀ x, p x = true → fil x = false ∧ fil (f x) = false) :
    (updateFirst p f l).filter fil = l.filter fil := by
  induction l with
  | nil => rfl
  | cons y ys ih =>
    by_cases hy : p y
    · simp only [updateFirst, if_pos hy]
      rw [List.filter_cons_of_neg (by simp [(h y hy).2]),
        List.filter_cons_of_neg (by simp [(h y hy).1])]
    · simp only [updateFirst, if_neg hy]
      by_cases hfy : fil y
      · rw [List.filter_cons_of_pos hfy, List.filter_cons_of_pos hfy, ih]
      · rw [List.filter_cons_of_neg (by simp [hfy]),
          List.filter_cons_of_neg (by simp [hfy]), ih]

def pcEff (now : String) (row : CatalogPriceRecordDto)
    (pc : List PrintingRow × List CardRow) :
    List PrintingRow × List CardRow :=
  (recordPrintingsEffect now row pc.1, recordCardsEffect now row pc.1 pc.2)

def pcFold (now : String) (rows : List CatalogPriceRecordDto)
    (pc : List PrintingRow × List CardRow) :
    List PrintingRow × List CardRow :=
  rows.foldl (fun pc row => pcEff now row pc) pc

def pricesFold (now v : String) (rows : List CatalogPriceRecordDto)
    (pr : List PriceRow) : List PriceRow :=
  rows.foldl (fun pr row => recordPricesEffect now row v pr) pr

theorem upsertCatalogRecords_proj (now v : String) :
    ∀ (rows : List CatalogPriceRecordDto) (t t' : DbState),
      upsertCatalogRecords now v rows t = .ok t' →
      t'.prices = pricesFold now v rows t.prices ∧
      (t'.printings, t'.cards) = pcFold now rows (t.printings, t.cards) := by
  intro rows
  induction rows with
  | nil =>
    intro t t' h
    unfold upsertCatalogRecords at h
    simp only [List.foldlM_nil] at h
    cases h
    exact ⟨rfl, rfl⟩
  | cons r rest ih =>
    intro t t' h
    unfold upsertCatalogRecords at h
    rw [List.foldlM_cons] at h
    cases hstep : upsertCatalogRecord now t r v with
    | error e =>
      rw [hstep] at h
      simp [bind, Except.bind] at h
    | ok s1 =>
      rw [hstep] at h
      simp only [bind, Except.bind] at h
      obtain ⟨hval, hs1⟩ := upsertCatalogRecord_ok_inv now t s1 r v hstep
      subst hs1
      obtain ⟨hp, hpc⟩ := ih _ t' (by unfold upsertCatalogRecords; exact h)
      constructor
      · rw [hp]
        rfl
      · rw [hpc]
        rfl

end SpaceDog

namespace SpaceDog

theorem upsertCompactPrices_filter_other (pid : String) (cid fid : Option Int)
    (low market high sell buylist : Option F64) (cap : Option Int)
    (v : String) (ymd : Int) (at_ : String) (pr : List PriceRow) :
    (upsertCompactPrices pid cid fid low market high sell buylist cap
        v ymd at_ pr).filter (fun r => r.syncVersion != v) =
      pr.filter (fun r => r.syncVersion != v) := by
  unfold upsertCompactPrices
  dsimp only
  split
  · rfl
  · unfold upsertBy
    split
    · apply filter_updateFirst_out
      intro x hx
      have hv : x.syncVersion = v := by
        simp only [PriceRow.keyMatches, decide_eq_true_eq] at hx
        exact hx.2.2.2
      exact ⟨by simp [hv], by simp [mergePriceRow, hv]⟩
    · rw [List.filter_append]
      simp

theorem pricesFold_filter (now v : String) :
    ∀ (rows : List CatalogPriceRecordDto) (pr : List PriceRow),
      (pricesFold now v rows pr).filter (fun r => r.syncVersion != v) =
        pr.filter (fun r => r.syncVersion != v) := by
  intro rows
  induction rows with
  | nil => intro pr; rfl
  | cons r rest ih =>
    intro pr
    unfold pricesFold
    rw [List.foldl_cons]
    have h2 := ih (recordPricesEffect now r v pr)
    unfold pricesFold at h2
    rw [h2]
    unfold recordPricesEffect
    exact upsertCompactPrices_filter_other _ _ _ _ _ _ _ _ _ _ _ _ _

def lookCard (P : List PrintingRow) (pid : String) : String :=
  ((P.find? (fun p => p.id == pid)).map (fun p => p.cardId)).getD
    ("scryfall:" ++ pid)

theorem cardKey_lookCard (P : List PrintingRow) (row : CatalogPriceRecordDto) :
    cardKeyFromPrintings P row = lookCard P (recordNormId row) := rfl

theorem lookCard_updateFirst (p : PrintingRow → Bool) (f : PrintingRow → PrintingRow)
    (l : List PrintingRow) (pid : String)
    (hid : ∀ x, (f x).id = x.id) (hcard : ∀ x, (f x).cardId = x.cardId) :
    lookCard (updateFirst p f l) pid = lookCard l pid := by
  induction l with
  | nil => rfl
  | cons y ys ih =>
    by_cases hy : p y
    · simp only [updateFirst, if_pos hy]
      unfold lookCard
      rw [List.find?_cons, List.find?_cons]
      rw [show ((f y).id == pid) = (y.id == pid) from by rw [hid y]]
      cases hq : (y.id == pid) with
      | true =>
        dsimp only
        simp [hcard y]
      | false =>
        dsimp only
    · simp only [updateFirst, if_neg hy]
      unfold lookCard at ih ⊢
      rw [List.find?_cons, List.find?_cons]
      cases hq : (y.id == pid) with
      | true => rfl
      | false =>
        dsimp only
        exact ih

theorem lookCard_printEffect (now : String) (row : CatalogPriceRecordDto)
    (P : List PrintingRow) (pid : String) :
    lookCard (recordPrintingsEffect now row P) pid = lookCard P pid := by
  unfold recordPrintingsEffect upsertBy
  split
  · exact lookCard_updateFirst _ _ _ _ (fun x => rfl) (fun x => rfl)
  · rename_i hany
    have hnone : P.find? (fun p => p.id == recordNormId row) = none := by
      rw [List.find?_eq_none]
      intro x hx
      exact fun hpx => hany (List.any_eq_true.mpr ⟨x, hx, hpx⟩)
    have hfid : (printFresh now row (cardKeyFromPrintings P row)).id =
        recordNormId row := rfl
    by_cases hpid : recordNormId row = pid
    · subst hpid
      unfold lookCard
      rw [List.find?_append, hnone]
      simp only [Option.none_or]
      rw [List.find?_cons]
      rw [show ((printFresh now row (cardKeyFromPrintings P row)).id ==
          recordNormId row) = true from by rw [hfid]; simp]
      have hfc : (printFresh now row (cardKeyFromPrintings P row)).cardId =
          cardKeyFromPrintings P row := rfl
      have hkey : cardKeyFromPrintings P row = "scryfall:" ++ recordNormId row := by
        rw [cardKey_lookCard]
        unfold lookCard
        rw [hnone]
        rfl
      simp only [Option.map_none, Option.map_some, Option.getD_some, hfc, hkey]
      rfl
    · unfold lookCard
      rw [find?_append_of_neg _ _ _ (by
        rw [hfid]
        exact beq_eq_false_iff_ne.mpr hpid)]

theorem lookCard_pcFold (now : String) :
    ∀ (rows : List CatalogPriceRecordDto)
      (pc : List PrintingRow × List CardRow) (pid : String),
      lookCard (pcFold now rows pc).1 pid = lookCard pc.1 pid := by
  intro rows
  induction rows with
  | nil => intro pc pid; rfl
  | cons r rest ih =>
    intro pc pid
    unfold pcFold
    rw [List.foldl_cons]
    have h2 := ih (pcEff now r pc) pid
    unfold pcFold at h2
    rw [h2]
    exact lookCard_printEffect now r pc.1 pid

end SpaceDog

namespace SpaceDog

theorem printUpd_idem (now : String) (row : CatalogPriceRecordDto) (p : PrintingRow) :
    printUpd now row (printUpd now row p) = printUpd now row p := by
  cases h : row.imageUrl <;> simp [printUpd, h]

theorem printUpd_fresh (now : String) (row : CatalogPriceRecordDto) (k : String) :
    printUpd now row (printFresh now row k) = printFresh now row k := by
  cases h : row.imageUrl <;> simp [printUpd, printFresh, h]

theorem cardUpd_idem (now : String) (row : CatalogPriceRecordDto) (c : CardRow) :
    cardUpd now row (cardUpd now row c) = cardUpd now row c := rfl

theorem cardUpd_fresh (now : String) (row : CatalogPriceRecordDto) (k : String) :
    cardUpd now row (cardFresh now row k) = cardFresh now row k := rfl

theorem printEffect_establishes (now : String) (row : CatalogPriceRecordDto)
    (P : List PrintingRow) :
    ∃ q, (recordPrintingsEffect now row P).find?
        (fun p => p.id == recordNormId row) = some q ∧
      printUpd now row q = q := by
  unfold recordPrintingsEffect upsertBy
  split
  · rename_i hany
    have hsome : (P.find? (fun p => p.id == recordNormId row)).isSome := by
      rw [List.find?_isSome]
      obtain ⟨x, hxm, hx⟩ := List.any_eq_true.mp hany
      exact ⟨x, hxm, hx⟩
    obtain ⟨r, hr⟩ := Option.isSome_iff_exists.mp hsome
    refine ⟨printUpd now row r, ?_, printUpd_idem now row r⟩
    apply updateFirst_find? _ _ _ r hr
    show ((printUpd now row r).id == recordNormId row) = true
    rw [show (printUpd now row r).id = r.id from rfl]
    simpa using List.find?_some hr
  · rename_i hany
    have hnone : P.find? (fun p => p.id == recordNormId row) = none := by
      rw [List.find?_eq_none]
      intro x hx
      exact fun hpx => hany (List.any_eq_true.mpr ⟨x, hx, hpx⟩)
    refine ⟨printFresh now row (cardKeyFromPrintings P row), ?_,
      printUpd_fresh now row _⟩
    rw [List.find?_append, hnone]
    simp only [Option.none_or]
    rw [List.find?_cons,
      show ((printFresh now row (cardKeyFromPrintings P row)).id ==
        recordNormId row) = true from by
          rw [show (printFresh now row (cardKeyFromPrintings P row)).id =
            recordNormId row from rfl]
          simp]

theorem cardEffect_establishes (now : String) (row : CatalogPriceRecordDto)
    (P : List PrintingRow) (C : List CardRow) :
    ∃ c, (recordCardsEffect now row P C).find?
        (fun c => c.id == cardKeyFromPrintings P row) = some c ∧
      cardUpd now row c = c := by
  unfold recordCardsEffect upsertBy
  dsimp only
  split
  · rename_i hany
    have hsome : (C.find? (fun c => c.id == cardKeyFromPrintings P row)).isSome := by
      rw [List.find?_isSome]
      obtain ⟨x, hxm, hx⟩ := List.any_eq_true.mp hany
      exact ⟨x, hxm, hx⟩
    obtain ⟨r, hr⟩ := Option.isSome_iff_exists.mp hsome
    refine ⟨cardUpd now row r, ?_, cardUpd_idem now row r⟩
    apply updateFirst_find? _ _ _ r hr
    show ((cardUpd now row r).id == cardKeyFromPrintings P row) = true
    rw [show (cardUpd now row r).id = r.id from rfl]
    simpa using List.find?_some hr
  · rename_i hany
    have hnone : C.find? (fun c => c.id == cardKeyFromPrintings P row) = none := by
      rw [List.find?_eq_none]
      intro x hx
      exact fun hpx => hany (List.any_eq_true.mpr ⟨x, hx, hpx⟩)
    refine ⟨cardFresh now row (cardKeyFromPrintings P row), ?_,
      cardUpd_fresh now row _⟩
    rw [List.find?_append, hnone]
    simp only [Option.none_or]
    rw [List.find?_cons,
      show ((cardFresh now row (cardKeyFromPrintings P row)).id ==
        cardKeyFromPrintings P row) = true from by
          rw [show (cardFresh now row (cardKeyFromPrintings P row)).id =
            cardKeyFromPrintings P row from rfl]
          simp]

theorem printEffect_id (now : String) (row : CatalogPriceRecordDto)
    (P : List PrintingRow)
    (h : ∃ q, P.find? (fun p => p.id == recordNormId row) = some q ∧
      printUpd now row q = q) :
    recordPrintingsEffect now row P = P := by
  obtain ⟨q, hf, hfix⟩ := h
  unfold recordPrintingsEffect upsertBy
  rw [if_pos (List.any_eq_true.mpr ⟨q, List.mem_of_find?_eq_some hf,
    by simpa using List.find?_some hf⟩)]
  exact updateFirst_fixpoint _ _ _ q hf hfix

theorem cardEffect_id (now : String) (row : CatalogPriceRecordDto)
    (P : List PrintingRow) (C : List CardRow)
    (h : ∃ c, C.find? (fun c => c.id == cardKeyFromPrintings P row) = some c ∧
      cardUpd now row c = c) :
    recordCardsEffect now row P C = C := by
  obtain ⟨c, hf, hfix⟩ := h
  unfold recordCardsEffect upsertBy
  dsimp only
  rw [if_pos (List.any_eq_true.mpr ⟨c, List.mem_of_find?_eq_some hf,
    by simpa using List.find?_some hf⟩)]
  exact updateFirst_fixpoint _ _ _ c hf hfix

theorem find?_printEffect_ne (now : String) (row : CatalogPriceRecordDto)
    (P : List PrintingRow) (pid : String) (h : recordNormId row ≠ pid) :
    (recordPrintingsEffect now row P).find? (fun p => p.id == pid) =
      P.find? (fun p => p.id == pid) := by
  unfold recordPrintingsEffect upsertBy
  split
  · apply find?_updateFirst_of
    · intro x
      rw [show (printUpd now row x).id = x.id from rfl]
    · intro x hx
      have : x.id = recordNormId row := by simpa using hx
      rw [this]
      exact beq_eq_false_iff_ne.mpr h
  · apply find?_append_of_neg
    rw [show (printFresh now row (cardKeyFromPrintings P row)).id =
      recordNormId row from rfl]
    exact beq_eq_false_iff_ne.mpr h

theorem find?_cardEffect_ne (now : String) (row : CatalogPriceRecordDto)
    (P : List PrintingRow) (C : List CardRow) (cid : String)
    (h : cardKeyFromPrintings P row ≠ cid) :
    (recordCardsEffect now row P C).find? (fun c => c.id == cid) =
      C.find? (fun c => c.id == cid) := by
  unfold recordCardsEffect upsertBy
  dsimp only
  split
  · apply find?_updateFirst_of
    · intro x
      rw [show (cardUpd now row x).id = x.id from rfl]
    · intro x hx
      have : x.id = cardKeyFromPrintings P row := by simpa using hx
      rw [this]
      exact beq_eq_false_iff_ne.mpr h
  · apply find?_append_of_neg
    rw [show (cardFresh now row (cardKeyFromPrintings P row)).id =
      cardKeyFromPrintings P row from rfl]
    exact beq_eq_false_iff_ne.mpr h

theorem cardKey_printEffect (now : String) (row0 row : CatalogPriceRecordDto)
    (P : List PrintingRow) :
    cardKeyFromPrintings (recordPrintingsEffect now row0 P) row =
      cardKeyFromPrintings P row := by
  rw [cardKey_lookCard, cardKey_lookCard, lookCard_printEffect]

theorem find?_pcFold_printings (now : String) :
    ∀ (rows : List CatalogPriceRecordDto)
      (pc : List PrintingRow × List CardRow) (pid : String),
      pid ∉ rows.map recordNormId →
      (pcFold now rows pc).1.find? (fun p => p.id == pid) =
        pc.1.find? (fun p => p.id == pid) := by
  intro rows
  induction rows with
  | nil => intro pc pid _; rfl
  | cons r rest ih =>
    intro pc pid h
    unfold pcFold
    rw [List.foldl_cons]
    have h2 := ih (pcEff now r pc) pid (fun hm => h (by simp at hm ⊢; right; exact hm))
    unfold pcFold at h2
    rw [h2]
    exact find?_printEffect_ne now r pc.1 pid
      (fun he => h (by simp [he]))

theorem find?_pcFold_cards (now : String) :
    ∀ (rows : List CatalogPriceRecordDto)
      (pc : List PrintingRow × List CardRow) (cid : String),
      (∀ row ∈ rows, cardKeyFromPrintings pc.1 row ≠ cid) →
      (pcFold now rows pc).2.find? (fun c => c.id == cid) =
        pc.2.find? (fun c => c.id == cid) := by
  intro rows
  induction rows with
  | nil => intro pc cid _; rfl
  | cons r rest ih =>
    intro pc cid h
    unfold pcFold
    rw [List.foldl_cons]
    have h2 := ih (pcEff now r pc) cid (fun row hm => by
      rw [show (pcEff now r pc).1 = recordPrintingsEffect now r pc.1 from rfl,
        cardKey_printEffect]
      exact h row (List.mem_cons_of_mem r hm))
    unfold pcFold at h2
    rw [h2]
    exact find?_cardEffect_ne now r pc.1 pc.2 cid (h r (List.mem_cons_self r rest))

end SpaceDog

namespace SpaceDog

theorem pcFold_fixpoints (now : String) :
    ∀ (rows : List CatalogPriceRecordDto)
      (pc : List PrintingRow × List CardRow),
      (rows.map recordNormId).Nodup →
      (rows.map (fun r => cardKeyFromPrintings pc.1 r)).Nodup →
      ∀ row ∈ rows,
        (∃ q, (pcFold now rows pc).1.find?
            (fun p => p.id == recordNormId row) = some q ∧
          printUpd now row q = q) ∧
        (∃ c, (pcFold now rows pc).2.find?
            (fun c => c.id == cardKeyFromPrintings pc.1 row) = some c ∧
          cardUpd now row c = c) := by
  intro rows
  induction rows with
  | nil => intro pc _ _ row hrow; cases hrow
  | cons r0 rest ih =>
    intro pc hnid hkey row hrow
    have hkeyeq : ∀ row, cardKeyFromPrintings (pcEff now r0 pc).1 row =
        cardKeyFromPrintings pc.1 row := fun row => by
      rw [show (pcEff now r0 pc).1 = recordPrintingsEffect now r0 pc.1 from rfl,
        cardKey_printEffect]
    have hfold : pcFold now (r0 :: rest) pc = pcFold now rest (pcEff now r0 pc) := by
      unfold pcFold
      rw [List.foldl_cons]
    rcases List.mem_cons.mp hrow with rfl | hmem
    · -- the head record: established by its own step, preserved by the rest
      constructor
      · obtain ⟨q, hq, hfix⟩ := printEffect_establishes now row pc.1
        refine ⟨q, ?_, hfix⟩
        rw [hfold, find?_pcFold_printings now rest (pcEff now row pc)
          (recordNormId row) (by
            intro hm
            exact (List.nodup_cons.mp hnid).1 hm)]
        exact hq
      · obtain ⟨c, hc, hfix⟩ := cardEffect_establishes now row pc.1 pc.2
        refine ⟨c, ?_, hfix⟩
        rw [hfold, find?_pcFold_cards now rest (pcEff now row pc)
          (cardKeyFromPrintings pc.1 row) (by
            intro row' hm'
            rw [hkeyeq row']
            intro he
            exact (List.nodup_cons.mp hkey).1 (by
              simpa [he] using
                List.mem_map_of_mem (fun r => cardKeyFromPrintings pc.1 r) hm'))]
        exact hc
    · -- a later record: the tail invariant at the advanced pair
      have hnid' : (rest.map recordNormId).Nodup := (List.nodup_cons.mp hnid).2
      have hkey' : (rest.map (fun r => cardKeyFromPrintings (pcEff now r0 pc).1 r)).Nodup := by
        have : rest.map (fun r => cardKeyFromPrintings (pcEff now r0 pc).1 r) =
            rest.map (fun r => cardKeyFromPrintings pc.1 r) :=
          List.map_congr_left (fun r _ => hkeyeq r)
        rw [this]
        exact (List.nodup_cons.mp hkey).2
      obtain ⟨hp, hc⟩ := ih (pcEff now r0 pc) hnid' hkey' row hmem
      refine ⟨by rw [hfold]; exact hp, ?_⟩
      obtain ⟨c, hfc, hfix⟩ := hc
      refine ⟨c, ?_, hfix⟩
      rw [hfold]
      rw [hkeyeq row] at hfc
      exact hfc

theorem pcFold_replay (now : String) :
    ∀ (rows : List CatalogPriceRecordDto)
      (pc : List PrintingRow × List CardRow),
      (∀ row ∈ rows,
        (∃ q, pc.1.find? (fun p => p.id == recordNormId row) = some q ∧
          printUpd now row q = q) ∧
        (∃ c, pc.2.find? (fun c => c.id == cardKeyFromPrintings pc.1 row) = some c ∧
          cardUpd now row c = c)) →
      pcFold now rows pc = pc := by
  intro rows
  induction rows with
  | nil => intro pc _; rfl
  | cons r0 rest ih =>
    intro pc h
    have h0 := h r0 (List.mem_cons_self r0 rest)
    have hpe : recordPrintingsEffect now r0 pc.1 = pc.1 :=
      printEffect_id now r0 pc.1 h0.1
    have hce : recordCardsEffect now r0 pc.1 pc.2 = pc.2 :=
      cardEffect_id now r0 pc.1 pc.2 h0.2
    have hstep : pcEff now r0 pc = pc := by
      unfold pcEff
      rw [hpe, hce]
    unfold pcFold
    rw [List.foldl_cons, hstep]
    exact ih pc (fun row hm => h row (List.mem_cons_of_mem r0 hm))

end SpaceDog

namespace SpaceDog

theorem writeCatalogSyncState_printings (now : String) (s : DbState) (ds : String)
    (cv sh : Option String) :
    (writeCatalogSyncState now s ds cv sh).printings = s.printings := by
  unfold writeCatalogSyncState
  cases cv with
  | none => rfl
  | some v =>
    dsimp only
    split
    · rfl
    · rfl

theorem writeCatalogSyncState_cards (now : String) (s : DbState) (ds : String)
    (cv sh : Option String) :
    (writeCatalogSyncState now s ds cv sh).cards = s.cards := by
  unfold writeCatalogSyncState
  cases cv with
  | none => rfl
  | some v =>
    dsimp only
    split
    · rfl
    · rfl

theorem appendCatalogPatchHistory_printings (now : String) (s : DbState)
    (ds : String) (fv : Option String) (tv st : String) (ph : Option String)
    (a b c t : Int) :
    (appendCatalogPatchHistory now s ds fv tv st ph a b c t).printings =
      s.printings := rfl

theorem appendCatalogPatchHistory_cards (now : String) (s : DbState)
    (ds : String) (fv : Option String) (tv st : String) (ph : Option String)
    (a b c t : Int) :
    (appendCatalogPatchHistory now s ds fv tv st ph a b c t).cards = s.cards := rfl

theorem writeCatalogSyncState_syncState (now : String) (s : DbState) (ds : String)
    (cv sh : Option String) :
    (writeCatalogSyncState now s ds cv sh).syncState =
      upsertBy (fun r => r.datasetName == ds) (syncRowUpd now cv sh)
        ⟨ds, cv, sh, now, now⟩ s.syncState := by
  unfold writeCatalogSyncState
  cases cv with
  | none => rfl
  | some v =>
    dsimp only
    split
    · rfl
    · rfl

theorem readCatalogSyncRow_write (now : String) (s : DbState) (ds : String)
    (cv sh : Option String) :
    (readCatalogSyncRow (writeCatalogSyncState now s ds cv sh) ds).1 = cv := by
  unfold readCatalogSyncRow
  rw [writeCatalogSyncState_syncState]
  unfold upsertBy
  by_cases hany : (s.syncState.any fun r => r.datasetName == ds) = true
  · rw [if_pos hany]
    have hsome : (s.syncState.find? (fun r => r.datasetName == ds)).isSome := by
      rw [List.find?_isSome]
      obtain ⟨x, hxm, hx⟩ := List.any_eq_true.mp hany
      exact ⟨x, hxm, hx⟩
    obtain ⟨r, hr⟩ := Option.isSome_iff_exists.mp hsome
    rw [updateFirst_find? _ _ _ r hr (by
      show ((syncRowUpd now cv sh r).datasetName == ds) = true
      rw [show (syncRowUpd now cv sh r).datasetName = r.datasetName from rfl]
      simpa using List.find?_some hr)]
    rfl
  · rw [if_neg hany]
    have hnone : s.syncState.find? (fun r => r.datasetName == ds) = none := by
      rw [List.find?_eq_none]
      intro x hx
      exact fun hpx => hany (List.any_eq_true.mpr ⟨x, hx, hpx⟩)
    rw [List.find?_append, hnone]
    simp only [Option.none_or]
    rw [List.find?_cons, show ((⟨ds, cv, sh, now, now⟩ :
      SyncStateRow).datasetName == ds) = true from by simp]

theorem computeCatalogStateHash_congr (s s' : DbState) (ds : String)
    (hp : s.prices = s'.prices) (hpr : s.printings = s'.printings)
    (hc : s.cards = s'.cards)
    (hr : (readCatalogSyncRow s ds).1 = (readCatalogSyncRow s' ds).1) :
    computeCatalogStateHash s ds = computeCatalogStateHash s' ds := by
  have hj : hashJoinRows s = hashJoinRows s' := by
    funext v
    unfold hashJoinRows
    rw [hp, hpr, hc]
  unfold computeCatalogStateHash
  rw [hr, hj]

theorem countCatalogRecords_congr (s s' : DbState) (ds : String)
    (hp : s.prices = s'.prices)
    (hr : (readCatalogSyncRow s ds).1 = (readCatalogSyncRow s' ds).1) :
    countCatalogRecords s ds = countCatalogRecords s' ds := by
  have hcv : countCatalogRecordsForVersion s = countCatalogRecordsForVersion s' := by
    funext v
    unfold countCatalogRecordsForVersion
    rw [hp]
  unfold countCatalogRecords
  rw [hr, hcv]

end SpaceDog

namespace SpaceDog

theorem opt_orElse_assoc (a b c : Option α) : ((a <|> b) <|> c) = (a <|> (b <|> c)) := by
  cases a <;> rfl

theorem opt_orElse_absorb (a b : Option α) : (a <|> (a <|> b)) = (a <|> b) := by
  cases a <;> rfl

theorem opt_orElse_triple (a b : Option α) : (a <|> (b <|> (a <|> b))) = (a <|> b) := by
  cases a <;> cases b <;> rfl

theorem opt_orElse_none (a : Option α) : (a <|> none) = a := by
  cases a <;> rfl

/-- The image values contributed by a run of printing updates, latest
taking precedence. -/
def imgOf (rs : List CatalogPriceRecordDto) : Option String :=
  rs.foldl (fun acc r => r.imageUrl <|> acc) none

/-- A run of `ON CONFLICT` printing updates applied in order. -/
def printChain (now : String) (rs : List CatalogPriceRecordDto)
    (p : PrintingRow) : PrintingRow :=
  rs.foldl (fun p r => printUpd now r p) p

/-- A run of `ON CONFLICT` card updates applied in order. -/
def cardChain (now : String) (rs : List CatalogPriceRecordDto)
    (c : CardRow) : CardRow :=
  rs.foldl (fun c r => cardUpd now r c) c

theorem imgOf_shift (l : List CatalogPriceRecordDto) :
    ∀ (a b : Option String),
      ((l.foldl (fun acc r => r.imageUrl <|> acc) a) <|> b) =
        l.foldl (fun acc r => r.imageUrl <|> acc) (a <|> b) := by
  induction l with
  | nil => intro a b; rfl
  | cons r l ih =>
    intro a b
    rw [List.foldl_cons, List.foldl_cons, ih, opt_orElse_assoc]

theorem imgOf_cons_shift (r0 : CatalogPriceRecordDto)
    (l : List CatalogPriceRecordDto) (b : Option String) :
    (imgOf (r0 :: l) <|> b) = (imgOf l <|> (r0.imageUrl <|> b)) := by
  unfold imgOf
  rw [List.foldl_cons, imgOf_shift, imgOf_shift]
  congr 1
  rw [opt_orElse_assoc]
  rfl

/-- Normal form of a nonempty run of printing updates: the overwritten
columns come from the last update, the image is the run's coalesced
image over the base image, everything else is the base row's. -/
theorem printChain_nf (now : String) :
    ∀ (rs : List CatalogPriceRecordDto) (r : CatalogPriceRecordDto)
      (p : PrintingRow),
      printChain now (rs ++ [r]) p =
        { p with
          setCode := r.setCode.mTrim.mToLower,
          collectorNumber := r.collectorNumber.mTrim,
          imageNormalUrl := imgOf (rs ++ [r]) <|> p.imageNormalUrl,
          updatedAt := recordUpdatedAt now r } := by
  intro rs
  induction rs with
  | nil =>
    intro r p
    rw [List.nil_append, imgOf_cons_shift]
    rfl
  | cons r0 rs ih =>
    intro r p
    show printChain now (rs ++ [r]) (printUpd now r0 p) = _
    rw [ih r (printUpd now r0 p), List.cons_append, imgOf_cons_shift]
    rfl

/-- Replaying the same run of printing updates is absorbed. -/
theorem printChain_idem (now : String) (rs : List CatalogPriceRecordDto)
    (p : PrintingRow) :
    printChain now rs (printChain now rs p) = printChain now rs p := by
  rcases List.eq_nil_or_concat rs with rfl | ⟨l, r, rfl⟩
  · rfl
  · rw [List.concat_eq_append]
    rw [printChain_nf now l r p]
    rw [printChain_nf]
    dsimp only
    rw [show (imgOf (l ++ [r]) <|> (imgOf (l ++ [r]) <|> p.imageNormalUrl)) =
      (imgOf (l ++ [r]) <|> p.imageNormalUrl) from opt_orElse_absorb _ _]

/-- A fresh row followed by its own update run, replayed through the
first record's update and the run again, is absorbed. -/
theorem printChain_mixed (now : String) (rs : List CatalogPriceRecordDto)
    (r0 : CatalogPriceRecordDto) (k : String) :
    printChain now rs (printUpd now r0
        (printChain now rs (printFresh now r0 k))) =
      printChain now rs (printFresh now r0 k) := by
  rcases List.eq_nil_or_concat rs with rfl | ⟨l, r, rfl⟩
  · exact congrArg (printChain now []) (printUpd_fresh now r0 k)
  · rw [List.concat_eq_append]
    rw [printChain_nf now l r (printFresh now r0 k)]
    rw [printChain_nf]
    dsimp only [printUpd, printFresh]
    rw [show (imgOf (l ++ [r]) <|> (r0.imageUrl <|>
        (imgOf (l ++ [r]) <|> r0.imageUrl))) =
      (imgOf (l ++ [r]) <|> r0.imageUrl) from opt_orElse_triple _ _]

/-- Normal form of a nonempty run of card updates. -/
theorem cardChain_nf (now : String) :
    ∀ (rs : List CatalogPriceRecordDto) (r : CatalogPriceRecordDto)
      (c : CardRow),
      cardChain now (rs ++ [r]) c =
        { c with name := r.name.mTrim, updatedAt := recordUpdatedAt now r } := by
  intro rs
  induction rs with
  | nil => intro r c; rfl
  | cons r0 rs ih =>
    intro r c
    show cardChain now (rs ++ [r]) (cardUpd now r0 c) = _
    rw [ih r (cardUpd now r0 c)]
    rfl

/-- Replaying the same run of card updates is absorbed. -/
theorem cardChain_idem (now : String) (rs : List CatalogPriceRecordDto)
    (c : CardRow) :
    cardChain now rs (cardChain now rs c) = cardChain now rs c := by
  rcases List.eq_nil_or_concat rs with rfl | ⟨l, r, rfl⟩
  · rfl
  · rw [List.concat_eq_append]
    rw [cardChain_nf now l r c]
    rw [cardChain_nf]

/-- The card analogue of `printChain_mixed`. -/
theorem cardChain_mixed (now : String) (rs : List CatalogPriceRecordDto)
    (r0 : CatalogPriceRecordDto) (k : String) :
    cardChain now rs (cardUpd now r0
        (cardChain now rs (cardFresh now r0 k))) =
      cardChain now rs (cardFresh now r0 k) := by
  rcases List.eq_nil_or_concat rs with rfl | ⟨l, r, rfl⟩
  · exact congrArg (cardChain now []) (cardUpd_fresh now r0 k)
  · rw [List.concat_eq_append]
    rw [cardChain_nf now l r (cardFresh now r0 k)]
    rw [cardChain_nf]
    rfl

end SpaceDog

namespace SpaceDog

/-- The printings component of the record loop as a plain fold. -/
def printFold (now : String) (rows : List CatalogPriceRecordDto)
    (P : List PrintingRow) : List PrintingRow :=
  rows.foldl (fun P row => recordPrintingsEffect now row P) P

theorem pcFold_fst (now : String) :
    ∀ (rows : List CatalogPriceRecordDto)
      (pc : List PrintingRow × List CardRow),
      (pcFold now rows pc).1 = printFold now rows pc.1 := by
  intro rows
  induction rows with
  | nil => intro pc; rfl
  | cons r rest ih =>
    intro pc
    unfold pcFold printFold
    rw [List.foldl_cons, List.foldl_cons]
    have h2 := ih (pcEff now r pc)
    unfold pcFold printFold at h2
    exact h2

theorem lookCard_printFold (now : String) :
    ∀ (rows : List CatalogPriceRecordDto) (P : List PrintingRow) (pid : String),
      lookCard (printFold now rows P) pid = lookCard P pid := by
  intro rows
  induction rows with
  | nil => intro P pid; rfl
  | cons r rest ih =>
    intro P pid
    unfold printFold
    rw [List.foldl_cons]
    have h2 := ih (recordPrintingsEffect now r P) pid
    unfold printFold at h2
    rw [h2]
    exact lookCard_printEffect now r P pid

theorem cardKey_printFold (now : String) (rows : List CatalogPriceRecordDto)
    (P : List PrintingRow) (row : CatalogPriceRecordDto) :
    cardKeyFromPrintings (printFold now rows P) row =
      cardKeyFromPrintings P row := by
  rw [cardKey_lookCard, cardKey_lookCard, lookCard_printFold]

/-- What the record loop does to the first printing row of one id: the
existing row is passed through the id's update run; a missing id is
inserted at its first occurrence (with the scryfall-prefixed card key)
and passed through the remaining updates. -/
def printLookStep (now : String) (rows : List CatalogPriceRecordDto)
    (X : String) : Option PrintingRow → Option PrintingRow
  | some q => some (printChain now
      (rows.filter (fun r => recordNormId r == X)) q)
  | none =>
    match rows.filter (fun r => recordNormId r == X) with
    | [] => none
    | r0 :: rest => some (printChain now rest
        (printFresh now r0 ("scryfall:" ++ X)))

theorem find?_printFold_chain (now : String) :
    ∀ (rows : List CatalogPriceRecordDto) (Q : List PrintingRow) (X : String),
      (printFold now rows Q).find? (fun p => p.id == X) =
        printLookStep now rows X (Q.find? (fun p => p.id == X)) := by
  intro rows
  induction rows with
  | nil =>
    intro Q X
    show Q.find? _ = printLookStep now [] X (Q.find? _)
    cases h : Q.find? (fun p => p.id == X) with
    | none => rfl
    | some q => rfl
  | cons r rows' ih =>
    intro Q X
    have hfold : printFold now (r :: rows') Q =
        printFold now rows' (recordPrintingsEffect now r Q) := by
      unfold printFold
      rw [List.foldl_cons]
    by_cases hX : recordNormId r = X
    · subst hX
      cases hq : Q.find? (fun p => p.id == recordNormId r) with
      | some q =>
        have hany : (Q.any fun p => p.id == recordNormId r) = true :=
          List.any_eq_true.mpr ⟨q, List.mem_of_find?_eq_some hq,
            by simpa using List.find?_some hq⟩
        have heff : recordPrintingsEffect now r Q =
            updateFirst (fun p => p.id == recordNormId r) (printUpd now r) Q := by
          unfold recordPrintingsEffect upsertBy
          rw [if_pos hany]
        have hq' : (recordPrintingsEffect now r Q).find?
            (fun p => p.id == recordNormId r) = some (printUpd now r q) := by
          rw [heff]
          exact updateFirst_find? _ _ _ q hq (by
            rw [show (printUpd now r q).id = q.id from rfl]
            simpa using List.find?_some hq)
        rw [hfold, ih, hq']
        unfold printLookStep
        rw [List.filter_cons_of_pos (by simp)]
        rfl
      | none =>
        have hany : (Q.any fun p => p.id == recordNormId r) = false := by
          rw [List.any_eq_false]
          intro x hx
          have := List.find?_eq_none.mp hq x hx
          simpa using this
        have hkey : cardKeyFromPrintings Q r = "scryfall:" ++ recordNormId r := by
          rw [cardKey_lookCard]
          unfold lookCard
          rw [hq]
          rfl
        have heff : recordPrintingsEffect now r Q =
            Q ++ [printFresh now r ("scryfall:" ++ recordNormId r)] := by
          unfold recordPrintingsEffect upsertBy
          rw [if_neg (by simp [hany]), hkey]
        have hq' : (recordPrintingsEffect now r Q).find?
            (fun p => p.id == recordNormId r) =
            some (printFresh now r ("scryfall:" ++ recordNormId r)) := by
          rw [heff, List.find?_append, hq]
          simp only [Option.none_or]
          rw [List.find?_cons, show ((printFresh now r
            ("scryfall:" ++ recordNormId r)).id == recordNormId r) = true from by
              rw [show (printFresh now r
                ("scryfall:" ++ recordNormId r)).id = recordNormId r from rfl]
              simp]
        rw [hfold, ih, hq']
        unfold printLookStep
        rw [List.filter_cons_of_pos (by simp)]
    · have hne : (recordPrintingsEffect now r Q).find? (fun p => p.id == X) =
          Q.find? (fun p => p.id == X) := find?_printEffect_ne now r Q X hX
      rw [hfold, ih, hne]
      have hstep : printLookStep now (r :: rows') X = printLookStep now rows' X := by
        funext o
        unfold printLookStep
        rw [List.filter_cons_of_neg (by simp [hX])]
      rw [hstep]

/-- One more pass of the same record loop does not change any printing
lookup. -/
theorem printLookStep_idem (now : String) (rows : List CatalogPriceRecordDto)
    (X : String) (o : Option PrintingRow) :
    printLookStep now rows X (printLookStep now rows X o) =
      printLookStep now rows X o := by
  cases o with
  | some q =>
    unfold printLookStep
    dsimp only
    rw [printChain_idem]
  | none =>
    cases hfl : rows.filter (fun r => recordNormId r == X) with
    | nil =>
      unfold printLookStep
      rw [hfl]
    | cons r0 rest =>
      show printLookStep now rows X (printLookStep now rows X none) = _
      unfold printLookStep
      rw [hfl]
      show some (printChain now (r0 :: rest)
        (printChain now rest (printFresh now r0 ("scryfall:" ++ X)))) = _
      rw [show printChain now (r0 :: rest)
          (printChain now rest (printFresh now r0 ("scryfall:" ++ X))) =
        printChain now rest (printUpd now r0
          (printChain now rest (printFresh now r0 ("scryfall:" ++ X)))) from rfl]
      rw [printChain_mixed]

/-- The printing lookups of the record loop replayed on its own result. -/
theorem find?_printFold_idem (now : String) (rows : List CatalogPriceRecordDto)
    (P : List PrintingRow) (X : String) :
    (printFold now rows (printFold now rows P)).find? (fun p => p.id == X) =
      (printFold now rows P).find? (fun p => p.id == X) := by
  rw [find?_printFold_chain, find?_printFold_chain, printLookStep_idem]

end SpaceDog

namespace SpaceDog

/-- The cards component of the record loop, with the card key of each
record precomputed (the key resolution is invariant along the loop). -/
def cardFoldFixed (now : String)
    (l : List (String × CatalogPriceRecordDto)) (C : List CardRow) :
    List CardRow :=
  l.foldl (fun C kr => upsertBy (fun c => c.id == kr.1) (cardUpd now kr.2)
    (cardFresh now kr.2 kr.1) C) C

theorem pcFold_snd (now : String) :
    ∀ (rows : List CatalogPriceRecordDto)
      (pc : List PrintingRow × List CardRow),
      (pcFold now rows pc).2 = cardFoldFixed now
        (rows.map (fun r => (cardKeyFromPrintings pc.1 r, r))) pc.2 := by
  intro rows
  induction rows with
  | nil => intro pc; rfl
  | cons r rest ih =>
    intro pc
    unfold pcFold
    rw [List.foldl_cons]
    have h2 := ih (pcEff now r pc)
    unfold pcFold at h2
    rw [h2]
    have hkeys : rest.map (fun r' => (cardKeyFromPrintings (pcEff now r pc).1 r', r')) =
        rest.map (fun r' => (cardKeyFromPrintings pc.1 r', r')) :=
      List.map_congr_left (fun r' _ => by
        rw [show (pcEff now r pc).1 = recordPrintingsEffect now r pc.1 from rfl,
          cardKey_printEffect])
    rw [hkeys]
    rw [List.map_cons]
    unfold cardFoldFixed
    rw [List.foldl_cons]
    rfl

/-- What the fixed-key card loop does to the first card row of one id. -/
def cardLookStep (now : String) (l : List (String × CatalogPriceRecordDto))
    (X : String) : Option CardRow → Option CardRow
  | some c => some (cardChain now
      ((l.filter (fun kr => kr.1 == X)).map Prod.snd) c)
  | none =>
    match l.filter (fun kr => kr.1 == X) with
    | [] => none
    | kr0 :: rest => some (cardChain now (rest.map Prod.snd)
        (cardFresh now kr0.2 X))

theorem find?_cardFoldFixed_chain (now : String) :
    ∀ (l : List (String × CatalogPriceRecordDto)) (C : List CardRow) (X : String),
      (cardFoldFixed now l C).find? (fun c => c.id == X) =
        cardLookStep now l X (C.find? (fun c => c.id == X)) := by
  intro l
  induction l with
  | nil =>
    intro C X
    show C.find? _ = cardLookStep now [] X (C.find? _)
    cases h : C.find? (fun c => c.id == X) with
    | none => rfl
    | some c => rfl
  | cons kr l' ih =>
    intro C X
    have hfold : cardFoldFixed now (kr :: l') C =
        cardFoldFixed now l' (upsertBy (fun c => c.id == kr.1) (cardUpd now kr.2)
          (cardFresh now kr.2 kr.1) C) := by
      unfold cardFoldFixed
      rw [List.foldl_cons]
    by_cases hX : kr.1 = X
    · subst hX
      cases hq : C.find? (fun c => c.id == kr.1) with
      | some c =>
        have hany : (C.any fun c => c.id == kr.1) = true :=
          List.any_eq_true.mpr ⟨c, List.mem_of_find?_eq_some hq,
            by simpa using List.find?_some hq⟩
        have heff : upsertBy (fun c => c.id == kr.1) (cardUpd now kr.2)
            (cardFresh now kr.2 kr.1) C =
            updateFirst (fun c => c.id == kr.1) (cardUpd now kr.2) C := by
          unfold upsertBy
          rw [if_pos hany]
        have hq' : (upsertBy (fun c => c.id == kr.1) (cardUpd now kr.2)
            (cardFresh now kr.2 kr.1) C).find? (fun c => c.id == kr.1) =
            some (cardUpd now kr.2 c) := by
          rw [heff]
          exact updateFirst_find? _ _ _ c hq (by
            rw [show (cardUpd now kr.2 c).id = c.id from rfl]
            simpa using List.find?_some hq)
        rw [hfold, ih, hq']
        unfold cardLookStep
        rw [List.filter_cons_of_pos (by simp)]
        rfl
      | none =>
        have hany : (C.any fun c => c.id == kr.1) = false := by
          rw [List.any_eq_false]
          intro x hx
          have := List.find?_eq_none.mp hq x hx
          simpa using this
        have heff : upsertBy (fun c => c.id == kr.1) (cardUpd now kr.2)
            (cardFresh now kr.2 kr.1) C = C ++ [cardFresh now kr.2 kr.1] := by
          unfold upsertBy
          rw [if_neg (by simp [hany])]
        have hq' : (upsertBy (fun c => c.id == kr.1) (cardUpd now kr.2)
            (cardFresh now kr.2 kr.1) C).find? (fun c => c.id == kr.1) =
            some (cardFresh now kr.2 kr.1) := by
          rw [heff, List.find?_append, hq]
          simp only [Option.none_or]
          rw [List.find?_cons, show ((cardFresh now kr.2 kr.1).id == kr.1) = true
            from by
              rw [show (cardFresh now kr.2 kr.1).id = kr.1 from rfl]
              simp]
        rw [hfold, ih, hq']
        unfold cardLookStep
        rw [List.filter_cons_of_pos (by simp)]
    · have hne : (upsertBy (fun c => c.id == kr.1) (cardUpd now kr.2)
          (cardFresh now kr.2 kr.1) C).find? (fun c => c.id == X) =
          C.find? (fun c => c.id == X) := by
        unfold upsertBy
        split
        · apply find?_updateFirst_of
          · intro x
            rw [show (cardUpd now kr.2 x).id = x.id from rfl]
          · intro x hx
            have : x.id = kr.1 := by simpa using hx
            rw [this]
            exact beq_eq_false_iff_ne.mpr hX
        · apply find?_append_of_neg
          rw [show (cardFresh now kr.2 kr.1).id = kr.1 from rfl]
          exact beq_eq_false_iff_ne.mpr hX
      rw [hfold, ih, hne]
      have hstep : cardLookStep now (kr :: l') X = cardLookStep now l' X := by
        funext o
        unfold cardLookStep
        rw [List.filter_cons_of_neg (by simp [hX])]
      rw [hstep]

/-- One more pass of the same fixed-key card loop does not change any
card lookup. -/
theorem cardLookStep_idem (now : String)
    (l : List (String × CatalogPriceRecordDto)) (X : String)
    (o : Option CardRow) :
    cardLookStep now l X (cardLookStep now l X o) = cardLookStep now l X o := by
  cases o with
  | some c =>
    unfold cardLookStep
    dsimp only
    rw [cardChain_idem]
  | none =>
    cases hfl : l.filter (fun kr => kr.1 == X) with
    | nil =>
      unfold cardLookStep
      rw [hfl]
    | cons kr0 rest =>
      show cardLookStep now l X (cardLookStep now l X none) = _
      unfold cardLookStep
      rw [hfl]
      show some (cardChain now ((kr0 :: rest).map Prod.snd)
        (cardChain now (rest.map Prod.snd) (cardFresh now kr0.2 X))) = _
      rw [List.map_cons]
      rw [show cardChain now (kr0.2 :: rest.map Prod.snd)
          (cardChain now (rest.map Prod.snd) (cardFresh now kr0.2 X)) =
        cardChain now (rest.map Prod.snd) (cardUpd now kr0.2
          (cardChain now (rest.map Prod.snd) (cardFresh now kr0.2 X))) from rfl]
      rw [cardChain_mixed]

/-- The card lookups of the fixed-key loop replayed on its own result. -/
theorem find?_cardFoldFixed_idem (now : String)
    (l : List (String × CatalogPriceRecordDto)) (C : List CardRow) (X : String) :
    (cardFoldFixed now l (cardFoldFixed now l C)).find? (fun c => c.id == X) =
      (cardFoldFixed now l C).find? (fun c => c.id == X) := by
  rw [find?_cardFoldFixed_chain, find?_cardFoldFixed_chain, cardLookStep_idem]

end SpaceDog

namespace SpaceDog

/-- The state hash only reads the price table, the printing and card
lookups, and the sync pointer. -/
theorem computeCatalogStateHash_ext (s2 s1 : DbState) (ds : String)
    (hp : s2.prices = s1.prices)
    (hpr : ∀ pid, findPrinting s2.printings pid = findPrinting s1.printings pid)
    (hc : ∀ cid, findCard s2.cards cid = findCard s1.cards cid)
    (hr : (readCatalogSyncRow s2 ds).1 = (readCatalogSyncRow s1 ds).1) :
    computeCatalogStateHash s2 ds = computeCatalogStateHash s1 ds := by
  have hpr2 : findPrinting s2.printings = findPrinting s1.printings := funext hpr
  have hc2 : findCard s2.cards = findCard s1.cards := funext hc
  have hj : hashJoinRows s2 = hashJoinRows s1 := by
    funext v
    unfold hashJoinRows
    rw [hp, hpr2, hc2]
  unfold computeCatalogStateHash
  rw [hr, hj]

theorem snapshot_idem_core
    (now ds : String) (s : DbState) (input : CatalogSnapshotApplyInput)
    (sU1 : DbState) (s1 : DbState)
    (hds : normalizeCatalogDataset input.dataset = .ok ds)
    (hv0 : ¬ input.version.mTrim = "")
    (hU1 : upsertCatalogRecords now input.version.mTrim input.records
      (deletePricesForVersion s input.version.mTrim) = .ok sU1)
    (hguard : ∀ ex, input.snapshotHash = some ex →
      ¬(ex.mTrim ≠ "" ∧ ex ≠ computeCatalogStateHash
        (writeCatalogSyncState now sU1 ds (some input.version.mTrim) none) ds))
    (hs1p : s1.prices = sU1.prices)
    (hs1pr : s1.printings = sU1.printings)
    (hs1c : s1.cards = sU1.cards) :
    ∃ s2 d2, applyCatalogSnapshot now s1 input = .ok (s2, d2) ∧
      d2.stateHash = computeCatalogStateHash
        (writeCatalogSyncState now sU1 ds (some input.version.mTrim) none) ds ∧
      d2.totalRecords = countCatalogRecords
        (writeCatalogSyncState now
          (writeCatalogSyncState now sU1 ds (some input.version.mTrim) none)
          ds (some input.version.mTrim)
          (some (computeCatalogStateHash
            (writeCatalogSyncState now sU1 ds (some input.version.mTrim) none) ds)))
        ds := by
  have hvalid := upsertCatalogRecords_ok_inv now input.version.mTrim
    input.records _ sU1 hU1
  obtain ⟨hpp1, hpc1⟩ := upsertCatalogRecords_proj now input.version.mTrim
    input.records _ sU1 hU1
  obtain ⟨sU2, hU2⟩ := upsertCatalogRecords_ok now input.version.mTrim
    input.records (deletePricesForVersion s1 input.version.mTrim) hvalid
  obtain ⟨hpp2, hpc2⟩ := upsertCatalogRecords_proj now input.version.mTrim
    input.records _ sU2 hU2
  have hdelp : (deletePricesForVersion s1 input.version.mTrim).prices =
      (deletePricesForVersion s input.version.mTrim).prices := by
    show s1.prices.filter _ = s.prices.filter _
    rw [hs1p, hpp1]
    rw [show (deletePricesForVersion s input.version.mTrim).prices =
      s.prices.filter (fun r => r.syncVersion != input.version.mTrim) from rfl]
    rw [pricesFold_filter]
    rw [List.filter_filter]
    simp
  have hE1 : sU2.prices = sU1.prices := by
    rw [hpp2, hdelp, ← hpp1]
  -- printings lookups
  have hprint1 : sU1.printings = printFold now input.records s.printings := by
    have h := congrArg Prod.fst hpc1
    rw [show ((sU1.printings, sU1.cards) : List PrintingRow × List CardRow).1 =
      sU1.printings from rfl] at h
    rw [h, pcFold_fst]
    rfl
  have hprint2 : sU2.printings = printFold now input.records
      (printFold now input.records s.printings) := by
    have h := congrArg Prod.fst hpc2
    rw [show ((sU2.printings, sU2.cards) : List PrintingRow × List CardRow).1 =
      sU2.printings from rfl] at h
    rw [h, pcFold_fst]
    rw [show ((deletePricesForVersion s1 input.version.mTrim).printings,
      (deletePricesForVersion s1 input.version.mTrim).cards).1 =
      s1.printings from rfl]
    rw [hs1pr, hprint1]
  have HP : ∀ pid, findPrinting sU2.printings pid =
      findPrinting sU1.printings pid := by
    intro pid
    unfold findPrinting
    rw [hprint2, hprint1]
    exact find?_printFold_idem now input.records s.printings pid
  -- card lookups
  have hcards1 : sU1.cards = cardFoldFixed now
      (input.records.map (fun r => (cardKeyFromPrintings s.printings r, r)))
      s.cards := by
    have h := congrArg Prod.snd hpc1
    rw [show ((sU1.printings, sU1.cards) : List PrintingRow × List CardRow).2 =
      sU1.cards from rfl] at h
    rw [h, pcFold_snd]
    rfl
  have hcards2 : sU2.cards = cardFoldFixed now
      (input.records.map (fun r => (cardKeyFromPrintings s.printings r, r)))
      (cardFoldFixed now
        (input.records.map (fun r => (cardKeyFromPrintings s.printings r, r)))
        s.cards) := by
    have h := congrArg Prod.snd hpc2
    rw [show ((sU2.printings, sU2.cards) : List PrintingRow × List CardRow).2 =
      sU2.cards from rfl] at h
    rw [h, pcFold_snd]
    rw [show ((deletePricesForVersion s1 input.version.mTrim).printings,
      (deletePricesForVersion s1 input.version.mTrim).cards).1 =
      s1.printings from rfl]
    rw [show ((deletePricesForVersion s1 input.version.mTrim).printings,
      (deletePricesForVersion s1 input.version.mTrim).cards).2 =
      s1.cards from rfl]
    rw [hs1pr, hs1c, hprint1, hcards1]
    have hkeys : input.records.map (fun r =>
        (cardKeyFromPrintings (printFold now input.records s.printings) r, r)) =
        input.records.map (fun r => (cardKeyFromPrintings s.printings r, r)) :=
      List.map_congr_left (fun r _ => by rw [cardKey_printFold])
    rw [hkeys]
  have HC : ∀ cid, findCard sU2.cards cid = findCard sU1.cards cid := by
    intro cid
    unfold findCard
    rw [hcards2, hcards1]
    exact find?_cardFoldFixed_idem now _ s.cards cid
  have hhash : computeCatalogStateHash
      (writeCatalogSyncState now sU2 ds (some input.version.mTrim) none) ds =
      computeCatalogStateHash
      (writeCatalogSyncState now sU1 ds (some input.version.mTrim) none) ds :=
    computeCatalogStateHash_ext _ _ ds
      (by rw [writeCatalogSyncState_prices, writeCatalogSyncState_prices, hE1])
      (by
        intro pid
        rw [show (writeCatalogSyncState now sU2 ds (some input.version.mTrim)
          none).printings = sU2.printings from writeCatalogSyncState_printings
            now sU2 ds (some input.version.mTrim) none]
        rw [show (writeCatalogSyncState now sU1 ds (some input.version.mTrim)
          none).printings = sU1.printings from writeCatalogSyncState_printings
            now sU1 ds (some input.version.mTrim) none]
        exact HP pid)
      (by
        intro cid
        rw [show (writeCatalogSyncState now sU2 ds (some input.version.mTrim)
          none).cards = sU2.cards from writeCatalogSyncState_cards
            now sU2 ds (some input.version.mTrim) none]
        rw [show (writeCatalogSyncState now sU1 ds (some input.version.mTrim)
          none).cards = sU1.cards from writeCatalogSyncState_cards
            now sU1 ds (some input.version.mTrim) none]
        exact HC cid)
      (by rw [readCatalogSyncRow_write, readCatalogSyncRow_write])
  have hcount : countCatalogRecords
      (writeCatalogSyncState now
        (writeCatalogSyncState now sU2 ds (some input.version.mTrim) none)
        ds (some input.version.mTrim)
        (some (computeCatalogStateHash
          (writeCatalogSyncState now sU2 ds (some input.version.mTrim) none) ds)))
      ds = countCatalogRecords
      (writeCatalogSyncState now
        (writeCatalogSyncState now sU1 ds (some input.version.mTrim) none)
        ds (some input.version.mTrim)
        (some (computeCatalogStateHash
          (writeCatalogSyncState now sU1 ds (some input.version.mTrim) none) ds)))
      ds :=
    countCatalogRecords_congr _ _ ds
      (by rw [writeCatalogSyncState_prices, writeCatalogSyncState_prices,
        writeCatalogSyncState_prices, writeCatalogSyncState_prices, hE1])
      (by rw [readCatalogSyncRow_write, readCatalogSyncRow_write])
  unfold applyCatalogSnapshot
  rw [hds]
  simp only [bind, Except.bind, pure, Except.pure]
  rw [if_neg hv0]
  rw [hU2]
  cases hsnap : input.snapshotHash with
  | none =>
    dsimp only
    exact ⟨_, _, rfl, hhash, hcount⟩
  | some ex =>
    dsimp only
    rw [if_neg (by rw [hhash]; exact hguard ex hsnap)]
    exact ⟨_, _, rfl, hhash, hcount⟩

end SpaceDog

namespace SpaceDog

/-- C5: re-applying an identical snapshot (same dataset, same version,
same records in the same order) a second time succeeds and yields the
same state hash and the same total record count as the first
application — for every prior state and every record list, including
duplicate record ids and printings sharing a card. -/
theorem applyCatalogSnapshot_idempotent
    (now : String) (s : DbState) (input : CatalogSnapshotApplyInput)
    (ds : String) (s1 : DbState) (d1 : CatalogApplyResultDto)
    (hds : normalizeCatalogDataset input.dataset = .ok ds)
    (h1 : applyCatalogSnapshot now s input = .ok (s1, d1)) :
    ∃ s2 d2, applyCatalogSnapshot now s1 input = .ok (s2, d2) ∧
      d2.stateHash = d1.stateHash ∧ d2.totalRecords = d1.totalRecords := by
  unfold applyCatalogSnapshot at h1
  rw [hds] at h1
  simp only [bind, Except.bind, pure, Except.pure] at h1
  by_cases hv0 : input.version.mTrim = ""
  · rw [if_pos hv0] at h1
    simp at h1
  rw [if_neg hv0] at h1
  obtain ⟨sU1, hU1, h1⟩ := except_bind_ok h1
  cases hsnap : input.snapshotHash with
  | none =>
    rw [hsnap] at h1
    dsimp only at h1
    injection h1 with hpair
    rw [Prod.mk.injEq] at hpair
    obtain ⟨hs1, hd1⟩ := hpair
    obtain ⟨s2, d2, hrun, hsh, htot⟩ := snapshot_idem_core now ds s input sU1 s1
      hds hv0 hU1
      (fun ex hex => by rw [hsnap] at hex; cases hex)
      (by rw [← hs1, appendCatalogPatchHistory_prices,
        writeCatalogSyncState_prices, writeCatalogSyncState_prices])
      (by rw [← hs1, appendCatalogPatchHistory_printings,
        writeCatalogSyncState_printings, writeCatalogSyncState_printings])
      (by rw [← hs1, appendCatalogPatchHistory_cards,
        writeCatalogSyncState_cards, writeCatalogSyncState_cards])
    exact ⟨s2, d2, hrun, by rw [hsh, ← hd1], by rw [htot, ← hd1]⟩
  | some ex =>
    rw [hsnap] at h1
    dsimp only at h1
    by_cases hex : ex.mTrim ≠ "" ∧ ex ≠ computeCatalogStateHash
        (writeCatalogSyncState now sU1 ds (some input.version.mTrim) none) ds
    · rw [if_pos hex] at h1
      simp [Except.bind] at h1
    · rw [if_neg hex] at h1
      injection h1 with hpair
      rw [Prod.mk.injEq] at hpair
      obtain ⟨hs1, hd1⟩ := hpair
      obtain ⟨s2, d2, hrun, hsh, htot⟩ := snapshot_idem_core now ds s input sU1 s1
        hds hv0 hU1
        (fun ex' hex' => by
          rw [hsnap] at hex'
          injection hex' with he
          rw [← he]
          exact hex)
        (by rw [← hs1, appendCatalogPatchHistory_prices,
          writeCatalogSyncState_prices, writeCatalogSyncState_prices])
        (by rw [← hs1, appendCatalogPatchHistory_printings,
          writeCatalogSyncState_printings, writeCatalogSyncState_printings])
        (by rw [← hs1, appendCatalogPatchHistory_cards,
          writeCatalogSyncState_cards, writeCatalogSyncState_cards])
      exact ⟨s2, d2, hrun, by rw [hsh, ← hd1], by rw [htot, ← hd1]⟩


/-- The result DTO of the first application of the one-record v1
snapshot to a fresh database. -/
def exC5D1 : CatalogApplyResultDto :=
  match applyCatalogSnapshot exC7Now DbState.empty exC7Snap with
  | .ok p => p.2
  | .error _ => ⟨"", none, "", "", none, "", 0, 0, 0, 0⟩

/-- Witness for C5: re-applying the concrete one-record v1 snapshot to
its own result reports the same state hash and record count. -/
theorem applyCatalogSnapshot_idempotent_witness :
    ∃ s2 d2, applyCatalogSnapshot exC7Now exC7S1 exC7Snap = .ok (s2, d2) ∧
      d2.stateHash = exC5D1.stateHash ∧ d2.totalRecords = exC5D1.totalRecords :=
  applyCatalogSnapshot_idempotent exC7Now DbState.empty exC7Snap "default_cards"
    exC7S1 exC5D1 rfl rfl

end SpaceDog
